import Mathlib

/-!
Shallow embedding of the healthcare Monte Carlo repository
(`src/data_generator.py`, `src/monte_carlo_simulator.py`, `src/analysis.py`).

Modelling conventions:
* Python floats are embedded as exact rationals (`ℚ`); the claims are stated
  over real-number semantics, and every boundary comparison in the source is
  an order comparison that `ℚ` reproduces exactly.
* Every random draw (`np.random.gamma`, `np.random.normal`, `np.random.beta`,
  `np.random.triangular`, `np.random.random`, `np.random.randint`,
  `.sample(1)`) is replaced by an explicit oracle stream passed as an
  argument; universally quantified theorems therefore cover every possible
  sequence of draws, and concrete counterexamples instantiate the streams
  with values inside the support of the corresponding distribution.
* `math.sqrt` / the square roots hidden inside `np.std` and `pandas .sem()`
  are irrational; they are embedded through an abstract `sq : ℚ → ℚ`
  parameter.  No claim inspects a standard-deviation value, only the
  structure around it.
* NaN-producing float paths (pandas `.std()`/`.sem()` on one sample, scipy
  `t.interval` with zero degrees of freedom, means of empty frames) are
  modelled by the explicit `RVal` type (`num q` or `nan`).
* Python exceptions are modelled with `Except PyError`; the constructors
  `invalidParameterError`, `emptyPoolError`, `insufficientSampleError` and
  `unknownTreatmentError` exist only so that the specification's error
  taxonomy is statable — the embedded code never produces them, exactly as
  the Python source never defines or raises them.
* DataFrames are embedded as lists of typed rows; the in-place column
  assignment performed by `risk_stratification_analysis`
  (`results_df['risk_category'] = pd.cut(...)`) is modelled by explicit
  state passing: each analyzer operation returns its result together with
  the table as it stands after the call.
-/

namespace HealthMC

/-- A float value that may be NaN (`.std()`/`.sem()` of a single sample,
`t.interval` with `df = 0`, mean of an empty series). -/
inductive RVal where
  | num (q : ℚ)
  | nan
  deriving DecidableEq, Repr

/-- Python `int(x)` / numpy `.astype(int)`: truncation toward zero.
(`Rat.floor` is used instead of `⌊·⌋` so that terms evaluate by kernel
reduction; the two agree, see `ratFloor_eq`.) -/
def pyInt (x : ℚ) : ℤ :=
  if 0 ≤ x then x.floor else -(-x).floor

/-- `np.clip(x, lo, hi)` = `np.minimum(hi, np.maximum(x, lo))`. -/
def npClip (x lo hi : ℚ) : ℚ := min hi (max x lo)

/-- Round to the nearest integer, halves to the even neighbour
(IEEE-754 / `np.round` tie-breaking). -/
def roundHalfEven (x : ℚ) : ℤ :=
  if x - x.floor < 1/2 then x.floor
  else if 1/2 < x - x.floor then x.floor + 1
  else if x.floor % 2 = 0 then x.floor else x.floor + 1

/-- `np.round(x, d)`: scale, round half to even, unscale. -/
def npRound (x : ℚ) (d : ℕ) : ℚ :=
  (roundHalfEven (x * 10 ^ d) : ℚ) / 10 ^ d

/-- Arithmetic mean of a list (callers guarantee nonemptiness; `[]` gives 0). -/
def listMean (xs : List ℚ) : ℚ := xs.sum / xs.length

/-- pandas/numpy mean: NaN on an empty series. -/
def pdMean (xs : List ℚ) : RVal :=
  if xs.isEmpty then .nan else .num (listMean xs)

/-- Population variance (`np.std` uses `ddof = 0`). -/
def varP (xs : List ℚ) : ℚ :=
  listMean (xs.map (fun x => (x - listMean xs) ^ 2))

/-- Sample variance with `ddof = 1` (pandas `.std()` / `.sem()`). -/
def varS (xs : List ℚ) : ℚ :=
  (xs.map (fun x => (x - listMean xs) ^ 2)).sum / (xs.length - 1 : ℚ)

/-- pandas `.std()` (ddof = 1): NaN when fewer than two samples. -/
def pdStd (sq : ℚ → ℚ) (xs : List ℚ) : RVal :=
  if 2 ≤ xs.length then .num (sq (varS xs)) else .nan

/-- pandas `.sem()` = s/√n = √(varS/n): NaN when fewer than two samples. -/
def pdSem (sq : ℚ → ℚ) (xs : List ℚ) : RVal :=
  if 2 ≤ xs.length then .num (sq (varS xs / xs.length)) else .nan

/-! ### Stable sorting

numpy's `quicksort` kernel runs plain insertion sort on arrays of up to 16
elements (every array the analyzer ever sorts: one row per treatment name),
and insertion sort is stable.  pandas `nargsort(ascending=False)` reverses
the input, argsorts ascending, and reverses the resulting indexer, so a
stable kernel yields a descending sort whose ties keep input order. -/

/-- Insert `a` into a list sorted ascending by `key`, before the first
element whose key is not smaller (stable insertion). -/
def insertLe {α : Type} (key : α → ℚ) (a : α) : List α → List α
  | [] => [a]
  | b :: bs => if key b < key a then b :: insertLe key a bs else a :: b :: bs

/-- Stable insertion sort, ascending by `key`. -/
def sortAsc {α : Type} (key : α → ℚ) : List α → List α
  | [] => []
  | a :: as => insertLe key a (sortAsc key as)

/-- `DataFrame.sort_values(key, ascending=False)`: pandas reverses the rows,
argsorts ascending with the (stable, for ≤ 16 rows) kernel, and reverses
the indexer. -/
def pandasSortDesc {α : Type} (key : α → ℚ) (l : List α) : List α :=
  (sortAsc key l.reverse).reverse

/-- Sort a list of rationals ascending (the value order of a sorted numpy
array is independent of the sorting algorithm). -/
def sortQ (xs : List ℚ) : List ℚ := sortAsc id xs

/-- The linear-interpolation step of `np.percentile` on an already sorted
array: `h = p(n-1)/100`, interpolation between the order statistics at
`⌊h⌋` and `⌊h⌋+1`. -/
def interpAt (s : List ℚ) (p : ℚ) : ℚ :=
  let n := s.length
  let h : ℚ := p * (n - 1) / 100
  let i : ℕ := h.floor.toNat
  let g : ℚ := h - h.floor
  s.getD i 0 + g * (s.getD (min (i + 1) (n - 1)) 0 - s.getD i 0)

/-- `np.percentile(xs, p)` with the default linear interpolation: sort,
then interpolate. -/
def npPercentile (xs : List ℚ) (p : ℚ) : ℚ :=
  interpAt (sortQ xs) p

/-- `np.median`: mean of the middle order statistics. -/
def npMedian (xs : List ℚ) : ℚ :=
  let s := sortQ xs
  let n := s.length
  if n % 2 = 1 then s.getD (n / 2) 0
  else (s.getD (n / 2 - 1) 0 + s.getD (n / 2) 0) / 2

/-- `Series.quantile(q)` (linear interpolation) = `np.percentile(·, 100q)`. -/
def quantileQ (xs : List ℚ) (q : ℚ) : ℚ := npPercentile xs (q * 100)

/-- Python exception classes that the embedded code can raise, together with
the four error classes named by the specification's error-handling taxonomy.
The Python source never defines nor raises the latter four; they are present
so that claims about them are statable. -/
inductive PyError where
  | keyError
  | valueError
  | indexError
  | invalidParameterError
  | emptyPoolError
  | insufficientSampleError
  | unknownTreatmentError
  deriving DecidableEq, Repr

/-! ## Data model (`src/data_generator.py`) -/

/-- One row of the patient roster produced by `generate_base_population`. -/
structure Patient where
  patient_id : String
  age : ℤ
  gender : String
  bmi : ℚ
  baseline_systolic : ℚ
  baseline_diastolic : ℚ
  baseline_glucose : ℚ
  baseline_hba1c : ℚ
  disease : String
  treatment : String
  baseline_severity : ℚ
  deriving DecidableEq, Repr

/-- `self.treatments` of `HealthcareDataGenerator`. -/
def treatmentsList : List String :=
  ["Standard Care", "Intensive Therapy", "Experimental Treatment"]

/-- Oracle streams standing in for the generator's random draws (one value
per patient index). -/
structure GenDraws where
  ageGamma : ℕ → ℚ
  genderU : ℕ → ℚ
  bmiN : ℕ → ℚ
  sysN : ℕ → ℚ
  diaN : ℕ → ℚ
  gluN : ℕ → ℚ
  hbN : ℕ → ℚ
  diseaseU : ℕ → ℚ
  treatI : ℕ → ℕ

/-- Left-pad with zeros (Python `str.zfill`). -/
def zfill (w : ℕ) (s : String) : String :=
  String.mk (List.replicate (w - s.length) '0') ++ s

/-- `np.random.choice(self.diseases, p=[p1, p2, 1-p1-p2])` by inverse CDF
over the list order `['Type 2 Diabetes', 'Hypertension', 'Both']`. -/
def chooseDisease (u p1 p2 : ℚ) : String :=
  if u < p1 then "Type 2 Diabetes"
  else if u < p1 + p2 then "Hypertension"
  else "Both"

/-- One patient of `generate_base_population` (index `i`, 0-based; the
stored columns round exactly as the source does, while the derived columns
are computed from the unrounded clipped values, as in the vectorized
numpy code). -/
def buildPatient (r : GenDraws) (i : ℕ) : Patient :=
  let ageF : ℚ := npClip (r.ageGamma i + 30) 30 85
  let age : ℤ := pyInt ageF
  let gender := if r.genderU i < 48/100 then "Male" else "Female"
  let bmi := npClip (r.bmiN i + ((age : ℚ) - 50) * (5/100)) 18 50
  let systolic :=
    npClip (110 + (bmi - 25) * (12/10) + ((age : ℚ) - 50) * (3/10) + r.sysN i) 90 180
  let diastolic :=
    npClip (70 + (bmi - 25) * (6/10) + ((age : ℚ) - 50) * (15/100) + r.diaN i) 60 120
  let glucose := npClip (95 + (bmi - 25) * (15/10) + r.gluN i) 70 180
  let hba1c := npClip (55/10 + (glucose - 100) * (15/1000) + r.hbN i) (45/10) 10
  let risk : ℕ :=
    (if bmi > 30 then 1 else 0) + (if systolic > 140 then 1 else 0) +
      (if glucose > 126 then 1 else 0)
  let prob : ℚ := npClip ((risk : ℚ) / 6) (1/10) (8/10)
  let disease :=
    if prob > 6/10 then chooseDisease (r.diseaseU i) (3/10) (3/10)
    else if prob > 3/10 then chooseDisease (r.diseaseU i) (4/10) (4/10)
    else chooseDisease (r.diseaseU i) (5/10) (45/100)
  let treatment := treatmentsList.getD (r.treatI i % 3) "Standard Care"
  let severity :=
    npClip ((bmi - 18) / 32 * 25 + (systolic - 90) / 90 * 25 +
      (glucose - 70) / 110 * 25 + (hba1c - 45/10) / (55/10) * 25) 0 100
  { patient_id := "PT" ++ zfill 6 (toString (i + 1))
    age := age
    gender := gender
    bmi := npRound bmi 1
    baseline_systolic := npRound systolic 0
    baseline_diastolic := npRound diastolic 0
    baseline_glucose := npRound glucose 0
    baseline_hba1c := npRound hba1c 2
    disease := disease
    treatment := treatment
    baseline_severity := npRound severity 1 }

/-- `HealthcareDataGenerator.generate_base_population`. -/
def generate_base_population (n : ℕ) (r : GenDraws) : List Patient :=
  (List.range n).map (buildPatient r)

/-- Default row used only to give `List.getD` a value at indices that are
always in range. -/
def dfltPatient : Patient :=
  { patient_id := "", age := 0, gender := "", bmi := 0, baseline_systolic := 0,
    baseline_diastolic := 0, baseline_glucose := 0, baseline_hba1c := 0,
    disease := "", treatment := "", baseline_severity := 0 }

/-- Oracle streams for the amplification step's random draws. -/
structure AmpDraws where
  pickH : ℕ → ℕ
  pickL : ℕ → ℕ
  idH : ℕ → ℕ
  idL : ℕ → ℕ
  ageJH : ℕ → ℤ
  ageJL : ℕ → ℤ
  bmiJH : ℕ → ℚ
  sysJH : ℕ → ℚ
  diaJH : ℕ → ℚ
  gluJH : ℕ → ℚ
  hbJH : ℕ → ℚ
  bmiJL : ℕ → ℚ
  sysJL : ℕ → ℚ
  diaJL : ℕ → ℚ
  gluJL : ℕ → ℚ
  hbJL : ℕ → ℚ

/-- The `baseline_severity` column. -/
def sevColumn (df : List Patient) : List ℚ := df.map (·.baseline_severity)

/-- `df[df['baseline_severity'] > df['baseline_severity'].quantile(0.9)]`:
note the strict inequality. -/
def highPool (df : List Patient) : List Patient :=
  df.filter (fun p => quantileQ (sevColumn df) (9/10) < p.baseline_severity)

/-- `df[df['baseline_severity'] < df['baseline_severity'].quantile(0.1)]`:
note the strict inequality. -/
def lowPool (df : List Patient) : List Patient :=
  df.filter (fun p => p.baseline_severity < quantileQ (sevColumn df) (1/10))

/-- `pool.sample(1).iloc[0]`: raises `ValueError` on an empty pool, and
otherwise picks some pool member (which one depends on the random state,
here on the oracle index `k`). -/
def sampleFrom (pool : List Patient) (k : ℕ) : Except PyError Patient :=
  if pool.isEmpty then .error .valueError
  else .ok (pool.getD (k % pool.length) dfltPatient)

/-- The high-risk synthetic perturbation: fresh `SYN` identifier, jittered
age and physiological attributes; `baseline_severity` is copied, not
recomputed. -/
def perturbHigh (a : AmpDraws) (i : ℕ) (src : Patient) : Patient :=
  { src with
    patient_id := "SYN" ++ toString (a.idH i)
    age := src.age + a.ageJH i
    bmi := src.bmi + a.bmiJH i
    baseline_systolic := src.baseline_systolic + a.sysJH i
    baseline_diastolic := src.baseline_diastolic + a.diaJH i
    baseline_glucose := src.baseline_glucose + a.gluJH i
    baseline_hba1c := src.baseline_hba1c + a.hbJH i }

/-- The low-risk synthetic perturbation (smaller jitter magnitudes in the
source; magnitudes live in the oracle streams here). -/
def perturbLow (a : AmpDraws) (i : ℕ) (src : Patient) : Patient :=
  { src with
    patient_id := "SYN" ++ toString (a.idL i)
    age := src.age + a.ageJL i
    bmi := src.bmi + a.bmiJL i
    baseline_systolic := src.baseline_systolic + a.sysJL i
    baseline_diastolic := src.baseline_diastolic + a.diaJL i
    baseline_glucose := src.baseline_glucose + a.gluJL i
    baseline_hba1c := src.baseline_hba1c + a.hbJL i }

/-- `HealthcareDataGenerator.amplify_edge_cases`.  `int(len(df) * factor)`
truncates toward zero; for a negative product Python's `range` over the
negative per-pool counts also runs zero iterations, which `Int.toNat`
reproduces. -/
def amplify_edge_cases (df : List Patient) (factor : ℚ) (a : AmpDraws) :
    Except PyError (List Patient) := do
  let nsyn : ℕ := (pyInt ((df.length : ℚ) * factor)).toNat
  let nH := nsyn / 2
  let nL := nsyn - nH
  let hs ← (List.range nH).mapM
    (fun i => (sampleFrom (highPool df) (a.pickH i)).map (perturbHigh a i))
  let ls ← (List.range nL).mapM
    (fun i => (sampleFrom (lowPool df) (a.pickL i)).map (perturbLow a i))
  return df ++ (hs ++ ls)

/-- `HealthcareDataGenerator.generate_patient_cohort`. -/
def generate_patient_cohort (n : ℕ) (amplify : Bool) (factor : ℚ)
    (r : GenDraws) (a : AmpDraws) : Except PyError (List Patient) :=
  let base := generate_base_population n r
  if amplify then amplify_edge_cases base factor a else .ok base

/-! ## Simulator (`src/monte_carlo_simulator.py`) -/

/-- The `TreatmentParameters` dataclass. -/
structure TreatmentParameters where
  efficacy_mean : ℚ
  efficacy_std : ℚ
  recovery_days_optimistic : ℚ
  recovery_days_likely : ℚ
  recovery_days_pessimistic : ℚ
  complication_rate : ℚ
  side_effect_severity : ℚ
  deriving DecidableEq, Repr

/-- `self.treatment_params['Standard Care']`. -/
def standardCare : TreatmentParameters :=
  ⟨65/100, 15/100, 30, 60, 120, 10/100, 25/10⟩

/-- `self.treatment_params['Intensive Therapy']`. -/
def intensiveTherapy : TreatmentParameters :=
  ⟨78/100, 18/100, 20, 45, 90, 18/100, 45/10⟩

/-- `self.treatment_params['Experimental Treatment']`. -/
def experimentalTreatment : TreatmentParameters :=
  ⟨72/100, 22/100, 15, 40, 100, 25/100, 55/10⟩

/-- The treatment-profile dictionary; a name outside the three keys raises
`KeyError` at the lookup site, modelled by `none`. -/
def treatment_params (t : String) : Option TreatmentParameters :=
  if t = "Standard Care" then some standardCare
  else if t = "Intensive Therapy" then some intensiveTherapy
  else if t = "Experimental Treatment" then some experimentalTreatment
  else none

/-- The four risk bands of the analyzer. -/
inductive RiskCat where
  | Low
  | Moderate
  | High
  | VeryHigh
  deriving DecidableEq, Repr

/-- The nested statistics bundle for final severity and severity
reduction. -/
structure DistStats where
  mean : ℚ
  median : ℚ
  std : ℚ
  percentile_5 : ℚ
  percentile_25 : ℚ
  percentile_75 : ℚ
  percentile_95 : ℚ
  deriving DecidableEq, Repr

/-- The recovery-time bundle (two extra percentiles). -/
structure RecoveryStats where
  mean : ℚ
  median : ℚ
  std : ℚ
  percentile_5 : ℚ
  percentile_25 : ℚ
  percentile_50 : ℚ
  percentile_75 : ℚ
  percentile_90 : ℚ
  percentile_95 : ℚ
  deriving DecidableEq, Repr

/-- One row of the simulator's result table.  `risk_category` models the
pandas column that `risk_stratification_analysis` later assigns in place on
the shared frame; the simulator produces rows without it (`none`). -/
structure OutcomeSummary where
  patient_id : String
  treatment : String
  baseline_severity : ℚ
  simulations : ℕ
  final_severity : DistStats
  severity_reduction : DistStats
  recovery_time : RecoveryStats
  probability_of_success : ℚ
  probability_of_complications : ℚ
  expected_efficacy : ℚ
  side_effect_severity : ℚ
  risk_category : Option RiskCat
  deriving DecidableEq, Repr

/-- Oracle streams for the per-trial draws: `eff` for the Beta draws
(support `(0,1)`; the Beta shape parameters `10·adj`, `10·(1-adj)` only
shape the distribution, not the support), `rec` for the triangular
recovery-time draws, `u` for `np.random.random()`. -/
structure SimDraws where
  eff : ℕ → ℚ
  recT : ℕ → ℚ
  u : ℕ → ℚ

/-- `severity_penalty = (baseline_severity / 100) * 0.1`. -/
def severityPenalty (p : Patient) : ℚ := p.baseline_severity / 100 * (1/10)

/-- The adjusted mean efficacy of step 2 of `simulate_treatment_outcome`. -/
def adjustedEfficacy (params : TreatmentParameters) (p : Patient) : ℚ :=
  let agePen := ((p.age : ℚ) - 50) * (2/1000)
  let bmiPen := max 0 ((p.bmi - 30) * (5/1000))
  npClip (params.efficacy_mean - agePen - bmiPen - severityPenalty p) (2/10) (95/100)

/-- Per-trial complication indicator:
`np.random.random() < complication_rate * (1 + severity_penalty)`. -/
def compFlag (params : TreatmentParameters) (p : Patient) (d : SimDraws) (i : ℕ) : Bool :=
  decide (d.u i < params.complication_rate * (1 + severityPenalty p))

/-- Per-trial success indicator: reduction of at least 40% of baseline and
no complication in the same trial. -/
def succFlag (params : TreatmentParameters) (p : Patient) (d : SimDraws) (i : ℕ) : Bool :=
  decide (p.baseline_severity * d.eff i ≥ p.baseline_severity * (4/10)) &&
    !(compFlag params p d i)

/-- The per-trial severity reductions `baseline_severity * efficacy`. -/
def reductions (p : Patient) (d : SimDraws) (n : ℕ) : List ℚ :=
  (List.range n).map (fun i => p.baseline_severity * d.eff i)

/-- Build a `DistStats` bundle the way the source reduces an array. -/
def mkDistStats (sq : ℚ → ℚ) (xs : List ℚ) : DistStats :=
  { mean := listMean xs
    median := npMedian xs
    std := sq (varP xs)
    percentile_5 := npPercentile xs 5
    percentile_25 := npPercentile xs 25
    percentile_75 := npPercentile xs 75
    percentile_95 := npPercentile xs 95 }

/-- Build the recovery-time bundle. -/
def mkRecoveryStats (sq : ℚ → ℚ) (xs : List ℚ) : RecoveryStats :=
  { mean := listMean xs
    median := npMedian xs
    std := sq (varP xs)
    percentile_5 := npPercentile xs 5
    percentile_25 := npPercentile xs 25
    percentile_50 := npPercentile xs 50
    percentile_75 := npPercentile xs 75
    percentile_90 := npPercentile xs 90
    percentile_95 := npPercentile xs 95 }

/-- The successful path of `simulate_treatment_outcome` (`n ≥ 1` trials). -/
def runSim (sq : ℚ → ℚ) (p : Patient) (params : TreatmentParameters) (n : ℕ)
    (d : SimDraws) : OutcomeSummary :=
  let reds := reductions p d n
  let recs := (List.range n).map d.recT
  let finals := reds.map (fun x => p.baseline_severity - x)
  { patient_id := p.patient_id
    treatment := p.treatment
    baseline_severity := p.baseline_severity
    simulations := n
    final_severity := mkDistStats sq finals
    severity_reduction := mkDistStats sq reds
    recovery_time := mkRecoveryStats sq recs
    probability_of_success :=
      (((List.range n).countP (fun i => succFlag params p d i)) : ℚ) / n
    probability_of_complications :=
      (((List.range n).countP (fun i => compFlag params p d i)) : ℚ) / n
    expected_efficacy := adjustedEfficacy params p
    side_effect_severity := params.side_effect_severity
    risk_category := none }

/-- `MonteCarloHealthcareSimulator.simulate_treatment_outcome`.  The dict
lookup precedes everything (KeyError for unknown treatments);
`np.zeros(num)` raises `ValueError` for a negative count; with zero trials
the loop body never runs and the first `np.percentile` over the empty
array raises `IndexError` (the preceding `mean`/`median`/`std` calls only
warn and yield NaN). -/
def simulate_treatment_outcome (sq : ℚ → ℚ) (p : Patient) (num : ℤ)
    (d : SimDraws) : Except PyError OutcomeSummary :=
  match treatment_params p.treatment with
  | none => .error .keyError
  | some params =>
    if num < 0 then .error .valueError
    else if num = 0 then .error .indexError
    else .ok (runSim sq p params num.toNat d)

/-! ## Analyzer (`src/analysis.py`) -/

/-- The analyzer's input table (the simulator's result DataFrame). -/
abbrev Table := List OutcomeSummary

/-- `Series.unique()`: values in order of first appearance. -/
def uniqueKeep (l : List String) : List String :=
  l.foldl (fun acc t => if t ∈ acc then acc else acc ++ [t]) []

/-- `results_df[results_df['treatment'] == t]`. -/
def groupRows (df : Table) (t : String) : Table :=
  List.filter (fun r => r.treatment = t) df

/-- Per-treatment success-rate statistics inside the summary dict. -/
structure TreatRate where
  mean : ℚ
  std : RVal
  median : ℚ
  deriving DecidableEq, Repr

/-- The dictionary returned by `generate_summary_statistics`. -/
structure SummaryStats where
  total_patients : ℕ
  treatment_distribution : List (String × ℕ)
  success_rates : List (String × TreatRate)
  mean_success_rate : RVal
  mean_complication_rate : RVal
  high_risk_patients : ℕ
  low_risk_patients : ℕ
  deriving DecidableEq, Repr

/-- `HealthcareAnalyzer.generate_summary_statistics`: a pure read of the
frame (the returned table is the input, unchanged).  `value_counts()`
presents the per-treatment counts sorted by descending count. -/
def generate_summary_statistics (sq : ℚ → ℚ) (df : Table) : SummaryStats × Table :=
  (let ts := df.map (·.treatment)
   { total_patients := df.length
     treatment_distribution :=
       pandasSortDesc (fun pr => (pr.2 : ℚ))
         ((uniqueKeep ts).map (fun t => (t, (groupRows df t).length)))
     success_rates :=
       (uniqueKeep ts).map (fun t =>
         let g := (groupRows df t).map (·.probability_of_success)
         (t, { mean := listMean g, std := pdStd sq g, median := npMedian g }))
     mean_success_rate := pdMean (df.map (·.probability_of_success))
     mean_complication_rate := pdMean (df.map (·.probability_of_complications))
     high_risk_patients := df.countP (fun r => r.baseline_severity > 70)
     low_risk_patients := df.countP (fun r => r.baseline_severity < 30) },
   df)

/-- One row of the comparison table built by
`compare_treatments_analysis` (columns `Treatment`, `N_Patients`, …). -/
structure CompRow where
  treatment : String
  n_patients : ℕ
  mean_success_rate : ℚ
  mean_complication_rate : ℚ
  mean_recovery_days : ℚ
  mean_severity_reduction : ℚ
  success_rate_std : RVal
  deriving DecidableEq, Repr

/-- The unsorted comparison rows, one per treatment in order of first
appearance (`unique()` order). -/
def compareRows (sq : ℚ → ℚ) (df : Table) : List CompRow :=
  (uniqueKeep (df.map (·.treatment))).map (fun t =>
    let g := groupRows df t
    { treatment := t
      n_patients := g.length
      mean_success_rate := listMean (g.map (·.probability_of_success))
      mean_complication_rate := listMean (g.map (·.probability_of_complications))
      mean_recovery_days := listMean (g.map (·.recovery_time.mean))
      mean_severity_reduction := listMean (g.map (·.severity_reduction.mean))
      success_rate_std := pdStd sq (g.map (·.probability_of_success)) })

/-- `HealthcareAnalyzer.compare_treatments_analysis`:
`comparison_df.sort_values('Mean_Success_Rate', ascending=False)`.
A pure read of the frame. -/
def compare_treatments_analysis (sq : ℚ → ℚ) (df : Table) : List CompRow × Table :=
  (pandasSortDesc (fun r => r.mean_success_rate) (compareRows sq df), df)

/-- `pd.cut(severity, bins=[0,30,50,70,100], labels=[...])` with the
default `right=True`, `include_lowest=False`: left-open, right-closed
intervals; values at or below 0, or above 100, get no category (NaN). -/
def riskCategory (s : ℚ) : Option RiskCat :=
  if 0 < s ∧ s ≤ 30 then some .Low
  else if 30 < s ∧ s ≤ 50 then some .Moderate
  else if 50 < s ∧ s ≤ 70 then some .High
  else if 70 < s ∧ s ≤ 100 then some .VeryHigh
  else none

/-- The per-band payload of `risk_stratification_analysis`. -/
structure RiskStats where
  n_patients : ℕ
  mean_success_rate : ℚ
  mean_complication_rate : ℚ
  mean_recovery_time : ℚ
  mean_baseline_severity : ℚ
  deriving DecidableEq, Repr

/-- `HealthcareAnalyzer.risk_stratification_analysis`: first assigns the
`risk_category` column **on the input frame** (an in-place mutation the
returned table exposes), then reports the non-empty bands in the fixed
Low/Moderate/High/Very-High order. -/
def risk_stratification_analysis (df : Table) :
    List (RiskCat × RiskStats) × Table :=
  let mutated : Table :=
    df.map (fun r => { r with risk_category := riskCategory r.baseline_severity })
  (([RiskCat.Low, RiskCat.Moderate, RiskCat.High, RiskCat.VeryHigh].filterMap
    (fun c =>
      let g := List.filter (fun r => r.risk_category = some c) mutated
      if g.isEmpty then none
      else some (c,
        { n_patients := g.length
          mean_success_rate := listMean (g.map (·.probability_of_success))
          mean_complication_rate := listMean (g.map (·.probability_of_complications))
          mean_recovery_time := listMean (g.map (·.recovery_time.mean))
          mean_baseline_severity := listMean (g.map (·.baseline_severity)) }))),
   mutated)

/-- The scalar columns a metric name can select;
an unknown name raises `KeyError` at the first group access. -/
def scalarColumn (m : String) : Option (OutcomeSummary → ℚ) :=
  if m = "probability_of_success" then some (·.probability_of_success)
  else if m = "probability_of_complications" then some (·.probability_of_complications)
  else if m = "baseline_severity" then some (·.baseline_severity)
  else if m = "expected_efficacy" then some (·.expected_efficacy)
  else none

/-- One row of the confidence-interval table. -/
structure CIRow where
  treatment : String
  ci_mean : RVal
  lower_ci : RVal
  upper_ci : RVal
  margin_of_error : RVal
  deriving DecidableEq, Repr

/-- `scipy.stats.t.interval(conf, dof, loc, scale)`: symmetric interval
`loc ∓ t⁎·scale` where `t⁎ = t.ppf((1+conf)/2, dof)` is embedded as the
abstract `tcrit conf dof`; `dof = 0` or a NaN scale yields NaN bounds
(no exception). -/
def tInterval (tcrit : ℚ → ℕ → ℚ) (conf : ℚ) (dof : ℕ) (loc : ℚ) (scale : RVal) :
    RVal × RVal :=
  match scale with
  | .nan => (.nan, .nan)
  | .num s =>
    if dof = 0 then (.nan, .nan)
    else (.num (loc - tcrit conf dof * s), .num (loc + tcrit conf dof * s))

/-- `(ci[1] - ci[0]) / 2` with NaN propagation. -/
def halfWidth (hi lo : RVal) : RVal :=
  match hi, lo with
  | .num a, .num b => .num ((a - b) / 2)
  | _, _ => .nan

/-- The confidence-interval row for one treatment group. -/
def ciRowFor (sq : ℚ → ℚ) (tcrit : ℚ → ℕ → ℚ) (conf : ℚ)
    (getM : OutcomeSummary → ℚ) (df : Table) (t : String) : CIRow :=
  let vals := (groupRows df t).map getM
  let m := listMean vals
  let se := pdSem sq vals
  let bnds := tInterval tcrit conf (vals.length - 1) m se
  { treatment := t
    ci_mean := pdMean vals
    lower_ci := bnds.1
    upper_ci := bnds.2
    margin_of_error := halfWidth bnds.2 bnds.1 }

/-- `HealthcareAnalyzer.confidence_interval_analysis`: one row per
treatment in `unique()` order; a pure read of the frame.  A group of a
single row gets NaN bounds (its `.sem()` is NaN and its `t.interval`
degrees of freedom are 0) — no exception of any kind is raised. -/
def confidence_interval_analysis (sq : ℚ → ℚ) (tcrit : ℚ → ℕ → ℚ) (df : Table)
    (metric : String) (conf : ℚ) : Except PyError (List CIRow) × Table :=
  let res : Except PyError (List CIRow) :=
    match scalarColumn metric with
    | some getM =>
      .ok ((uniqueKeep (df.map (·.treatment))).map (ciRowFor sq tcrit conf getM df))
    | none =>
      if df.isEmpty then .ok [] else .error .keyError
  (res, df)

/-! ## Derived definitions used by the verification -/

/-- The lower edge of each band as declared by the analyzer's bin list. -/
def bandLo : RiskCat → ℚ
  | .Low => 0
  | .Moderate => 30
  | .High => 50
  | .VeryHigh => 70

/-- The upper edge of each band as declared by the analyzer's bin list. -/
def bandHi : RiskCat → ℚ
  | .Low => 30
  | .Moderate => 50
  | .High => 70
  | .VeryHigh => 100

/-- The risk-band assignment the specification describes: half-open
intervals `[0,30) [30,50) [50,70)` and closed `[70,100]`.  This definition
follows the specification's words and exists only to be compared with the
source-derived `riskCategory`. -/
def specRiskBand (s : ℚ) : Option RiskCat :=
  if 0 ≤ s ∧ s < 30 then some .Low
  else if 30 ≤ s ∧ s < 50 then some .Moderate
  else if 50 ≤ s ∧ s < 70 then some .High
  else if 70 ≤ s ∧ s ≤ 100 then some .VeryHigh
  else none

/-- The high-severity source pool the specification describes (severity at
or above the 0.9 quantile); follows the specification's words, to be
compared with the source-derived `highPool`. -/
def specHighPool (df : List Patient) : List Patient :=
  df.filter (fun p => quantileQ (sevColumn df) (9/10) ≤ p.baseline_severity)

/-- `int(len(df) * amplification_factor)` as a natural number. -/
def nSyn (df : List Patient) (factor : ℚ) : ℕ :=
  (pyInt ((df.length : ℚ) * factor)).toNat

/-- The high-pool member the `i`-th synthetic high-risk patient copies. -/
def highPick (df : List Patient) (a : AmpDraws) (i : ℕ) : Patient :=
  (highPool df).getD (a.pickH i % (highPool df).length) dfltPatient

/-- The low-pool member the `i`-th synthetic low-risk patient copies. -/
def lowPick (df : List Patient) (a : AmpDraws) (i : ℕ) : Patient :=
  (lowPool df).getD (a.pickL i % (lowPool df).length) dfltPatient

/-- The physiological bounds of §3 of the specification: severity in
`[0,100]`, age in `[30,85]`, BMI in `[18,50]`, systolic in `[90,180]`,
diastolic in `[60,120]`, glucose in `[70,180]`, HbA1c in `[4.5,10]`. -/
def physioBounds (p : Patient) : Prop :=
  (0 ≤ p.baseline_severity ∧ p.baseline_severity ≤ 100) ∧
  (30 ≤ p.age ∧ p.age ≤ 85) ∧
  (18 ≤ p.bmi ∧ p.bmi ≤ 50) ∧
  (90 ≤ p.baseline_systolic ∧ p.baseline_systolic ≤ 180) ∧
  (60 ≤ p.baseline_diastolic ∧ p.baseline_diastolic ≤ 120) ∧
  (70 ≤ p.baseline_glucose ∧ p.baseline_glucose ≤ 180) ∧
  (45/10 ≤ p.baseline_hba1c ∧ p.baseline_hba1c ≤ 10)

instance (p : Patient) : Decidable (physioBounds p) := by
  unfold physioBounds
  infer_instance

/-! ### Concrete fixtures for counterexamples and witnesses -/

/-- Dummy square root used where a concrete `sq` oracle is needed (no claim
depends on its values). -/
def sqZ : ℚ → ℚ := fun _ => 0

/-- Dummy Student-t critical value oracle. -/
def tcZ : ℚ → ℕ → ℚ := fun _ _ => 2

/-- A result row with the given treatment, baseline severity and success
probability (shape of a `simulate_treatment_outcome` output row). -/
def testRow (t : String) (sev ps : ℚ) : OutcomeSummary :=
  { patient_id := "X", treatment := t, baseline_severity := sev, simulations := 1,
    final_severity := mkDistStats sqZ [sev], severity_reduction := mkDistStats sqZ [0],
    recovery_time := mkRecoveryStats sqZ [60], probability_of_success := ps,
    probability_of_complications := 0, expected_efficacy := 1/2,
    side_effect_severity := 1, risk_category := none }

/-- A concrete patient with the given identifier and severity. -/
def testPat (id : String) (sev : ℚ) : Patient :=
  { patient_id := id, age := 50, gender := "Male", bmi := 28, baseline_systolic := 120,
    baseline_diastolic := 80, baseline_glucose := 100, baseline_hba1c := 55/10,
    disease := "Both", treatment := "Standard Care", baseline_severity := sev }

/-- Concrete per-trial draws: efficacies 1/4, 1/2, …; recovery 60 days;
uniform draw 0 in trial 0 (forcing one complication) and 1/2 afterwards. -/
def testDraws : SimDraws :=
  { eff := fun i => ((i : ℚ) + 1) / 4, recT := fun _ => 60,
    u := fun i => if i = 0 then 0 else 1/2 }

/-- Amplification draws with all jitters zero (0 is in the support of every
jitter distribution used by the source). -/
def ampZ : AmpDraws :=
  { pickH := fun _ => 0, pickL := fun _ => 0, idH := fun _ => 111111, idL := fun _ => 222222,
    ageJH := fun _ => 0, ageJL := fun _ => 0,
    bmiJH := fun _ => 0, sysJH := fun _ => 0, diaJH := fun _ => 0, gluJH := fun _ => 0,
    hbJH := fun _ => 0,
    bmiJL := fun _ => 0, sysJL := fun _ => 0, diaJL := fun _ => 0, gluJL := fun _ => 0,
    hbJL := fun _ => 0 }

/-- Generator draws for the amplification-bounds counterexample: patient 0
draws a BMI of 20 (clamped path inactive), patient 1 draws 60 (clamped to
50); all noise terms zero.  Every value is in the support of the
corresponding distribution. -/
def genCE : GenDraws :=
  { ageGamma := fun _ => 0, genderU := fun _ => 0,
    bmiN := fun i => if i = 0 then 20 else 60,
    sysN := fun _ => 0, diaN := fun _ => 0, gluN := fun _ => 0, hbN := fun _ => 0,
    diseaseU := fun _ => 0, treatI := fun _ => 0 }

/-- Amplification draws for the bounds counterexample: the high-pool BMI
jitter draws `+2` (well inside the support of a Normal(0,2) draw). -/
def ampCE : AmpDraws :=
  { ampZ with bmiJH := fun _ => 2 }

/-- A default summary row (only used as the `Option.getD` fallback of
`simW`, which never fires). -/
def dfltSummary : OutcomeSummary :=
  { patient_id := "", treatment := "", baseline_severity := 0, simulations := 0,
    final_severity := mkDistStats sqZ [0], severity_reduction := mkDistStats sqZ [0],
    recovery_time := mkRecoveryStats sqZ [0], probability_of_success := 0,
    probability_of_complications := 0, expected_efficacy := 0,
    side_effect_severity := 0, risk_category := none }

/-- The summary produced by a concrete two-trial simulation of
`testPat "PT1" 50` under Standard Care. -/
def simW : OutcomeSummary :=
  ((simulate_treatment_outcome sqZ (testPat "PT1" 50) 2 testDraws).toOption).getD dfltSummary

/-- A two-patient table with distinct severities (both percentile pools
non-empty). -/
def dfPair : List Patient := [testPat "P1" 10, testPat "P2" 20]

/-- The amplified output of `dfPair` with factor 1 under `ampZ`. -/
def outPair : List Patient :=
  dfPair ++ ([perturbHigh ampZ 0 (testPat "P2" 20)] ++ [perturbLow ampZ 0 (testPat "P1" 10)])

/-- The Moderate-band statistics of a single row of severity 40. -/
def rsW : RiskStats :=
  { n_patients := 1, mean_success_rate := 1, mean_complication_rate := 0,
    mean_recovery_time := 60, mean_baseline_severity := 40 }

/-- The success-probability column of one treatment group (the series the
default confidence-interval metric selects). -/
def groupMetric (df : Table) (t : String) : List ℚ :=
  (groupRows df t).map (fun r => r.probability_of_success)

/-- A table with one treatment group of two rows (enough samples for a
proper t-interval). -/
def dfCI : Table := [testRow "A" 50 (1/2), testRow "A" 50 (1/2)]

/-! ## Basic lemmas -/

theorem ratFloor_eq (q : ℚ) : q.floor = ⌊q⌋ := by
  rw [Rat.floor_def', Rat.floor_def]

theorem npClip_mem {lo hi : ℚ} (x : ℚ) (h : lo ≤ hi) :
    lo ≤ npClip x lo hi ∧ npClip x lo hi ≤ hi := by
  unfold npClip
  constructor
  · exact le_min h (le_max_right x lo)
  · exact min_le_left hi _

theorem roundHalfEven_ge {m : ℤ} {x : ℚ} (h : (m : ℚ) ≤ x) : m ≤ roundHalfEven x := by
  unfold roundHalfEven
  have hf : m ≤ x.floor := by
    rw [ratFloor_eq]; exact Int.le_floor.2 h
  split_ifs <;> omega

theorem roundHalfEven_le {m : ℤ} {x : ℚ} (h : x ≤ m) : roundHalfEven x ≤ m := by
  unfold roundHalfEven
  rw [ratFloor_eq]
  have hf : ⌊x⌋ ≤ m := le_trans (Int.floor_le_floor h) (by simp)
  have hfr : (⌊x⌋ : ℚ) ≤ x := Int.floor_le x
  have hlt : (1:ℚ)/2 ≤ x - ⌊x⌋ → ⌊x⌋ < m := by
    intro hr
    rcases lt_or_eq_of_le hf with h' | h'
    · exact h'
    · exfalso
      have : x ≤ (⌊x⌋ : ℚ) := by rw [h']; exact_mod_cast h
      linarith
  split_ifs with h1 h2 h3
  · exact hf
  · have := hlt (le_of_lt h2)
    omega
  · exact hf
  · have := hlt (le_of_not_lt h1)
    omega

theorem npRound_mem {A B : ℤ} {d : ℕ} {x : ℚ}
    (h1 : (A : ℚ) / 10 ^ d ≤ x) (h2 : x ≤ (B : ℚ) / 10 ^ d) :
    (A : ℚ) / 10 ^ d ≤ npRound x d ∧ npRound x d ≤ (B : ℚ) / 10 ^ d := by
  have hp : (0 : ℚ) < 10 ^ d := by positivity
  have hA : (A : ℚ) ≤ x * 10 ^ d := by
    rw [div_le_iff hp] at h1; exact h1
  have hB : x * 10 ^ d ≤ (B : ℚ) := by
    rw [le_div_iff hp] at h2; exact h2
  have hc : (A : ℚ) ≤ (roundHalfEven (x * 10 ^ d) : ℚ) := by
    exact_mod_cast roundHalfEven_ge hA
  have hc' : (roundHalfEven (x * 10 ^ d) : ℚ) ≤ (B : ℚ) := by
    exact_mod_cast roundHalfEven_le hB
  unfold npRound
  constructor
  · exact (div_le_div_iff_of_pos_right hp).mpr hc
  · exact (div_le_div_iff_of_pos_right hp).mpr hc'

theorem pyInt_floor_of_nonneg {x : ℚ} (h : 0 ≤ x) : pyInt x = ⌊x⌋ := by
  unfold pyInt
  rw [if_pos h, ratFloor_eq]

theorem pyInt_mem {m M : ℤ} {x : ℚ} (h1 : (m : ℚ) ≤ x) (h2 : x ≤ M) (hm : 0 ≤ m) :
    m ≤ pyInt x ∧ pyInt x ≤ M := by
  have h0 : (0 : ℚ) ≤ x := le_trans (by exact_mod_cast hm) h1
  rw [pyInt_floor_of_nonneg h0]
  exact ⟨Int.le_floor.2 h1, Int.le_trans (Int.floor_le_floor h2) (by simp)⟩

theorem listSum_le {xs : List ℚ} {hi : ℚ} (h : ∀ x ∈ xs, x ≤ hi) :
    xs.sum ≤ hi * xs.length := by
  induction xs with
  | nil => simp
  | cons a as ih =>
    have ha := h a (by simp)
    have hs := ih (fun x hx => h x (by simp [hx]))
    simp only [List.sum_cons, List.length_cons]
    push_cast
    nlinarith

theorem lt_listSum {xs : List ℚ} {lo : ℚ} (hne : xs ≠ []) (h : ∀ x ∈ xs, lo < x) :
    lo * xs.length < xs.sum := by
  induction xs with
  | nil => exact absurd rfl hne
  | cons a as ih =>
    have ha := h a (by simp)
    rcases eq_or_ne as [] with h' | h'
    · subst h'; simpa using ha
    · have hs := ih h' (fun x hx => h x (by simp [hx]))
      simp only [List.sum_cons, List.length_cons]
      push_cast
      nlinarith

theorem listMean_mem_Ioc {xs : List ℚ} {lo hi : ℚ} (hne : xs ≠ [])
    (h : ∀ x ∈ xs, lo < x ∧ x ≤ hi) :
    lo < listMean xs ∧ listMean xs ≤ hi := by
  have hlen : 0 < (xs.length : ℚ) := by
    have := List.length_pos.2 hne
    exact_mod_cast this
  unfold listMean
  constructor
  · rw [lt_div_iff hlen]
    exact lt_listSum hne (fun x hx => (h x hx).1)
  · rw [div_le_iff hlen]
    have := listSum_le (fun x hx => (h x hx).2)
    linarith

theorem listMean_map_const_sub {xs : List ℚ} (c : ℚ) (hne : xs ≠ []) :
    listMean (xs.map (fun x => c - x)) = c - listMean xs := by
  have hlen : (xs.length : ℚ) ≠ 0 := by
    have := List.length_pos.2 hne
    positivity
  have hsum : (xs.map (fun x => c - x)).sum = c * xs.length - xs.sum := by
    induction xs with
    | nil => simp
    | cons a as ih =>
      rcases eq_or_ne as [] with h' | h'
      · subst h'; simp
      · have := ih (by simp [h']) (by
          have := List.length_pos.2 h'
          positivity)
        simp only [List.map_cons, List.sum_cons, List.length_cons] at this ⊢
        push_cast
        linarith
  unfold listMean
  rw [hsum, List.length_map]
  field_simp

/-! ## Stable sorting -/

theorem insertLe_perm {α : Type} (key : α → ℚ) (a : α) (l : List α) :
    (insertLe key a l).Perm (a :: l) := by
  induction l with
  | nil => simp [insertLe]
  | cons b bs ih =>
    unfold insertLe
    split_ifs
    · exact ((ih.cons b).trans (List.Perm.swap a b bs))
    · exact List.Perm.refl _

theorem sortAsc_perm {α : Type} (key : α → ℚ) (l : List α) : (sortAsc key l).Perm l := by
  induction l with
  | nil => simp [sortAsc]
  | cons a as ih =>
    unfold sortAsc
    exact (insertLe_perm key a _).trans (ih.cons a)

theorem insertLe_sorted {α : Type} (key : α → ℚ) (a : α) {l : List α}
    (h : l.Pairwise (fun x y => key x ≤ key y)) :
    (insertLe key a l).Pairwise (fun x y => key x ≤ key y) := by
  induction l with
  | nil => simp [insertLe]
  | cons b bs ih =>
    rw [List.pairwise_cons] at h
    unfold insertLe
    split_ifs with hlt
    · rw [List.pairwise_cons]
      refine ⟨fun x hx => ?_, ih h.2⟩
      have hx' : x ∈ a :: bs := (insertLe_perm key a bs).mem_iff.1 hx
      rcases List.mem_cons.1 hx' with h' | h'
      · subst h'; exact le_of_lt hlt
      · exact h.1 x h'
    · rw [List.pairwise_cons]
      refine ⟨fun x hx => ?_, List.pairwise_cons.2 h⟩
      rcases List.mem_cons.1 hx with h' | h'
      · subst h'; exact le_of_not_lt hlt
      · exact le_trans (le_of_not_lt hlt) (h.1 x h')

theorem sortAsc_sorted {α : Type} (key : α → ℚ) (l : List α) :
    (sortAsc key l).Pairwise (fun x y => key x ≤ key y) := by
  induction l with
  | nil => simp [sortAsc]
  | cons a as ih =>
    unfold sortAsc
    exact insertLe_sorted key a ih

theorem pandasSortDesc_sorted {α : Type} (key : α → ℚ) (l : List α) :
    (pandasSortDesc key l).Pairwise (fun x y => key y ≤ key x) := by
  unfold pandasSortDesc
  rw [List.pairwise_reverse]
  exact sortAsc_sorted key l.reverse

theorem pandasSortDesc_perm {α : Type} (key : α → ℚ) (l : List α) :
    (pandasSortDesc key l).Perm l := by
  unfold pandasSortDesc
  exact ((List.reverse_perm _).trans (sortAsc_perm key l.reverse)).trans
    (List.reverse_perm l)

theorem filter_insertLe {α : Type} (key : α → ℚ) (p : α → Bool)
    (hp : ∀ x y, p x = true → p y = true → key x = key y) (a : α) (l : List α) :
    (insertLe key a l).filter p = (a :: l).filter p := by
  induction l with
  | nil => rfl
  | cons b bs ih =>
    unfold insertLe
    split_ifs with hlt
    · cases hpb : p b with
      | false => simp [List.filter_cons, hpb, ih]
      | true =>
        cases hpa : p a with
        | false => simp [List.filter_cons, hpb, hpa, ih]
        | true => exact absurd (hp b a hpb hpa ▸ hlt) (lt_irrefl _)
    · rfl

theorem filter_sortAsc {α : Type} (key : α → ℚ) (p : α → Bool)
    (hp : ∀ x y, p x = true → p y = true → key x = key y) (l : List α) :
    (sortAsc key l).filter p = l.filter p := by
  induction l with
  | nil => rfl
  | cons a as ih =>
    unfold sortAsc
    rw [filter_insertLe key p hp]
    simp only [List.filter_cons]
    split <;> rw [ih]

theorem pandasSortDesc_filter {α : Type} (key : α → ℚ) (p : α → Bool)
    (hp : ∀ x y, p x = true → p y = true → key x = key y) (l : List α) :
    (pandasSortDesc key l).filter p = l.filter p := by
  unfold pandasSortDesc
  rw [List.filter_reverse, filter_sortAsc key p hp, List.filter_reverse,
    List.reverse_reverse]

/-! ## Percentile mirror lemmas -/

theorem sortQ_length (xs : List ℚ) : (sortQ xs).length = xs.length :=
  (sortAsc_perm id xs).length_eq

theorem sortQ_sorted (xs : List ℚ) : (sortQ xs).Pairwise (· ≤ ·) :=
  sortAsc_sorted id xs

theorem sortQ_map_const_sub (c : ℚ) (xs : List ℚ) :
    sortQ (xs.map (fun x => c - x)) = ((sortQ xs).reverse).map (fun x => c - x) := by
  have hperm : (sortQ (xs.map (fun x => c - x))).Perm
      (((sortQ xs).reverse).map (fun x => c - x)) := by
    refine (sortAsc_perm id _).trans (List.Perm.map _ ?_).symm
    exact (List.reverse_perm _).trans (sortAsc_perm id xs)
  have h1 : List.Sorted (· ≤ ·) (sortQ (xs.map (fun x => c - x))) := sortQ_sorted _
  have h2 : List.Sorted (· ≤ ·) (((sortQ xs).reverse).map (fun x => c - x)) := by
    have hrev : ((sortQ xs).reverse).Pairwise (fun a b => b ≤ a) := by
      rw [List.pairwise_reverse]
      exact sortQ_sorted xs
    exact List.Pairwise.map _ (fun a b hab => sub_le_sub_left hab c) hrev
  exact List.eq_of_perm_of_sorted hperm h1 h2

theorem getD_reverse_map_sub (s : List ℚ) (c : ℚ) {j : ℕ} (hj : j < s.length) :
    ((s.reverse).map (fun x => c - x)).getD j 0 = c - s.getD (s.length - 1 - j) 0 := by
  have hj' : j < s.reverse.length := by simpa using hj
  have hk : s.length - 1 - j < s.length := by omega
  rw [List.getD_eq_getD_get?, List.getD_eq_getD_get?, List.get?_map,
    List.get?_reverse (by simpa using hj)]
  rcases List.get?_eq_get hk with h
  rw [h]
  rfl

/-- `np.percentile` interpolation flips under `x ↦ c - x` together with
`p ↦ 100 - p`, on any array of length at least 1. -/
theorem interpAt_flip (s : List ℚ) (c : ℚ) (hn : 1 ≤ s.length) {p : ℚ}
    (hp0 : 0 ≤ p) (hp1 : p ≤ 100) :
    interpAt ((s.reverse).map (fun x => c - x)) p = c - interpAt s (100 - p) := by
  have hlen : ((s.reverse).map (fun x => c - x)).length = s.length := by simp
  have hnQ : (1 : ℚ) ≤ (s.length : ℚ) := by exact_mod_cast hn
  set n := s.length with hndef
  set h : ℚ := p * ((n : ℚ) - 1) / 100 with hhdef
  have hsub : (100 - p) * ((n : ℚ) - 1) / 100 = ((n : ℚ) - 1) - h := by
    rw [hhdef]; ring
  have hh0 : 0 ≤ h := by
    rw [hhdef]
    have h1 : (0 : ℚ) ≤ (n : ℚ) - 1 := by linarith
    positivity
  have hh1 : h ≤ (n : ℚ) - 1 := by
    rw [hhdef, div_le_iff (by norm_num : (0 : ℚ) < 100)]
    nlinarith
  have hfloorn : ⌊(n : ℚ) - 1⌋ = (n : ℤ) - 1 := by
    rw [show ((n : ℚ) - 1) = ((n : ℚ) - ((1 : ℤ) : ℚ)) by norm_num,
      Int.floor_sub_int, Int.floor_natCast]
  have hfl0 : 0 ≤ ⌊h⌋ := Int.floor_nonneg.2 hh0
  have hfl1 : ⌊h⌋ ≤ (n : ℤ) - 1 := by
    have := Int.floor_le_floor hh1
    rwa [hfloorn] at this
  have hiZ : ((⌊h⌋.toNat : ℤ)) = ⌊h⌋ := Int.toNat_of_nonneg hfl0
  -- unfold both sides
  rw [show interpAt ((s.reverse).map (fun x => c - x)) p =
      ((s.reverse).map (fun x => c - x)).getD (⌊h⌋.toNat) 0 +
        (h - ⌊h⌋) * (((s.reverse).map (fun x => c - x)).getD
          (min (⌊h⌋.toNat + 1) (n - 1)) 0 -
          ((s.reverse).map (fun x => c - x)).getD (⌊h⌋.toNat) 0) by
    simp only [interpAt, hlen, ratFloor_eq, hndef]]
  rw [show interpAt s (100 - p) =
      s.getD (⌊((n : ℚ) - 1) - h⌋.toNat) 0 +
        ((((n : ℚ) - 1) - h) - ⌊((n : ℚ) - 1) - h⌋) *
          (s.getD (min (⌊((n : ℚ) - 1) - h⌋.toNat + 1) (n - 1)) 0 -
            s.getD (⌊((n : ℚ) - 1) - h⌋.toNat) 0) by
    simp only [interpAt, ratFloor_eq, hndef, hsub]]
  by_cases hg : (⌊h⌋ : ℚ) = h
  · -- the interpolation index is exact; both interpolation weights vanish
    have hfl' : ⌊((n : ℚ) - 1) - h⌋ = (n : ℤ) - 1 - ⌊h⌋ := by
      have hrw : ((n : ℚ) - 1) - h = (((n : ℤ) - 1 - ⌊h⌋ : ℤ) : ℚ) := by
        push_cast
        rw [hg]
      rw [hrw, Int.floor_intCast]
    have hg' : (((n : ℚ) - 1) - h) - (⌊((n : ℚ) - 1) - h⌋ : ℚ) = 0 := by
      rw [hfl']
      push_cast
      rw [hg]
      ring
    have hidx : (⌊((n : ℚ) - 1) - h⌋).toNat = n - 1 - ⌊h⌋.toNat := by
      rw [hfl']; omega
    have hjlt : ⌊h⌋.toNat < n := by omega
    have hw : h - (⌊h⌋ : ℚ) = 0 := by rw [hg, sub_self]
    rw [hg', hidx, hw, getD_reverse_map_sub s c hjlt]
    ring
  · -- fractional index: the floor of the mirrored index drops by one
    have hfr : (⌊h⌋ : ℚ) < h := lt_of_le_of_ne (Int.floor_le h) hg
    have hlt1 : h < (n : ℚ) - 1 := by
      rcases lt_or_eq_of_le hh1 with h' | h'
      · exact h'
      · exfalso
        apply hg
        rw [h', hfloorn]
        push_cast
        ring
    have hfl2 : ⌊h⌋ ≤ (n : ℤ) - 2 := by
      have : ⌊h⌋ < (n : ℤ) - 1 := by
        rw [Int.floor_lt]
        rw [show (((n : ℤ) - 1 : ℤ) : ℚ) = (n : ℚ) - 1 by push_cast; ring]
        exact hlt1
      omega
    have hfl' : ⌊((n : ℚ) - 1) - h⌋ = (n : ℤ) - 2 - ⌊h⌋ := by
      rw [Int.floor_eq_iff]
      constructor
      · rw [show (((n : ℤ) - 2 - ⌊h⌋ : ℤ) : ℚ) = (n : ℚ) - 2 - (⌊h⌋ : ℚ) by push_cast; ring]
        have := Int.lt_floor_add_one h
        linarith
      · rw [show (((n : ℤ) - 2 - ⌊h⌋ : ℤ) : ℚ) = (n : ℚ) - 2 - (⌊h⌋ : ℚ) by push_cast; ring]
        linarith
    have hg' : (((n : ℚ) - 1) - h) - (⌊((n : ℚ) - 1) - h⌋ : ℚ) = 1 - (h - ⌊h⌋) := by
      rw [hfl']; push_cast; ring
    have hi2 : ⌊h⌋.toNat ≤ n - 2 := by omega
    have hn2 : 2 ≤ n := by omega
    have hmin1 : min (⌊h⌋.toNat + 1) (n - 1) = ⌊h⌋.toNat + 1 := by omega
    have hidx : (⌊((n : ℚ) - 1) - h⌋).toNat = n - 2 - ⌊h⌋.toNat := by
      rw [hfl']; omega
    have hmin2 : min ((⌊((n : ℚ) - 1) - h⌋).toNat + 1) (n - 1) = n - 1 - ⌊h⌋.toNat := by
      rw [hidx]; omega
    rw [hg', hmin1, hmin2, hidx]
    have hj1 : ⌊h⌋.toNat < n := by omega
    have hj2 : ⌊h⌋.toNat + 1 < n := by omega
    rw [getD_reverse_map_sub s c hj1, getD_reverse_map_sub s c hj2]
    have he1 : n - 1 - (⌊h⌋.toNat + 1) = n - 2 - ⌊h⌋.toNat := by omega
    rw [he1]
    ring

/-- The percentile flip on raw (unsorted) data. -/
theorem npPercentile_map_sub (c : ℚ) (xs : List ℚ) (hne : xs ≠ []) {p : ℚ}
    (hp0 : 0 ≤ p) (hp1 : p ≤ 100) :
    npPercentile (xs.map (fun x => c - x)) p = c - npPercentile xs (100 - p) := by
  unfold npPercentile
  rw [sortQ_map_const_sub]
  exact interpAt_flip (sortQ xs) c
    (by rw [sortQ_length]; exact List.length_pos.2 hne) hp0 hp1

/-! ## Amplification structure lemmas -/

theorem exceptBind_ok {α β : Type} (x : α) (f : α → Except PyError β) :
    (Except.ok x : Except PyError α) >>= f = f x := rfl

theorem exceptBind_error {α β : Type} (e : PyError) (f : α → Except PyError β) :
    (Except.error e : Except PyError α) >>= f = .error e := rfl

theorem mapM_ok_of {α β : Type} {f : α → Except PyError β} {g : α → β} :
    ∀ l : List α, (∀ i ∈ l, f i = .ok (g i)) → l.mapM f = .ok (l.map g) := by
  intro l
  induction l with
  | nil => intro _; rfl
  | cons a as ih =>
    intro h
    rw [List.mapM_cons, h a (by simp), exceptBind_ok,
      ih (fun i hi => h i (by simp [hi])), exceptBind_ok]
    rfl

theorem mapM_ok_elim {α β : Type} {f : α → Except PyError β} :
    ∀ {l : List α} {ys : List β}, l.mapM f = .ok ys →
      ys.length = l.length ∧ ∀ y ∈ ys, ∃ i ∈ l, f i = .ok y := by
  intro l
  induction l with
  | nil =>
    intro ys h
    rw [List.mapM_nil] at h
    cases h
    simp
  | cons a as ih =>
    intro ys h
    rw [List.mapM_cons] at h
    cases hfa : f a with
    | error e => rw [hfa, exceptBind_error] at h; cases h
    | ok b =>
      rw [hfa, exceptBind_ok] at h
      cases hrest : as.mapM f with
      | error e => rw [hrest, exceptBind_error] at h; cases h
      | ok bs =>
        rw [hrest, exceptBind_ok] at h
        cases h
        obtain ⟨hlen, hmem⟩ := ih hrest
        constructor
        · simp [hlen]
        · intro y hy
          rcases List.mem_cons.1 hy with h' | h'
          · exact ⟨a, by simp, h' ▸ hfa⟩
          · obtain ⟨i, hi, hok⟩ := hmem y h'
            exact ⟨i, by simp [hi], hok⟩

theorem sampleFrom_ok {pool : List Patient} (h : pool ≠ []) (k : ℕ) :
    sampleFrom pool k = .ok (pool.getD (k % pool.length) dfltPatient) := by
  unfold sampleFrom
  rw [if_neg (by simpa using h)]

theorem getD_mem {l : List Patient} {k : ℕ} (h : k < l.length) :
    l.getD k dfltPatient ∈ l := by
  rw [List.getD_eq_getElem l dfltPatient h]
  exact List.getElem_mem h

theorem highPick_mem {df : List Patient} (h : highPool df ≠ []) (a : AmpDraws) (i : ℕ) :
    highPick df a i ∈ highPool df := by
  unfold highPick
  exact getD_mem (Nat.mod_lt _ (List.length_pos.2 h))

theorem lowPick_mem {df : List Patient} (h : lowPool df ≠ []) (a : AmpDraws) (i : ℕ) :
    lowPick df a i ∈ lowPool df := by
  unfold lowPick
  exact getD_mem (Nat.mod_lt _ (List.length_pos.2 h))

/-- The successful amplification run, fully characterized: when each pool
needed is non-empty, the result is the input followed by the synthetic
rows, each a perturbed copy of its pool pick. -/
theorem amplify_ok_of_pools (df : List Patient) (factor : ℚ) (a : AmpDraws)
    (hH : 1 ≤ nSyn df factor / 2 → highPool df ≠ [])
    (hL : 1 ≤ nSyn df factor - nSyn df factor / 2 → lowPool df ≠ []) :
    amplify_edge_cases df factor a =
      .ok (df ++
        (((List.range (nSyn df factor / 2)).map
            (fun i => perturbHigh a i (highPick df a i))) ++
         ((List.range (nSyn df factor - nSyn df factor / 2)).map
            (fun i => perturbLow a i (lowPick df a i))))) := by
  have hmapH : (List.range (nSyn df factor / 2)).mapM
      (fun i => (sampleFrom (highPool df) (a.pickH i)).map (perturbHigh a i)) =
      .ok ((List.range (nSyn df factor / 2)).map
        (fun i => perturbHigh a i (highPick df a i))) := by
    apply mapM_ok_of
    intro i hi
    have hpos : 1 ≤ nSyn df factor / 2 := by
      rcases List.mem_range.1 hi with h'
      omega
    rw [sampleFrom_ok (hH hpos)]
    rfl
  have hmapL : (List.range (nSyn df factor - nSyn df factor / 2)).mapM
      (fun i => (sampleFrom (lowPool df) (a.pickL i)).map (perturbLow a i)) =
      .ok ((List.range (nSyn df factor - nSyn df factor / 2)).map
        (fun i => perturbLow a i (lowPick df a i))) := by
    apply mapM_ok_of
    intro i hi
    have hpos : 1 ≤ nSyn df factor - nSyn df factor / 2 := by
      rcases List.mem_range.1 hi with h'
      omega
    rw [sampleFrom_ok (hL hpos)]
    rfl
  show (do
    let hs ← (List.range (nSyn df factor / 2)).mapM
      (fun i => (sampleFrom (highPool df) (a.pickH i)).map (perturbHigh a i))
    let ls ← (List.range (nSyn df factor - nSyn df factor / 2)).mapM
      (fun i => (sampleFrom (lowPool df) (a.pickL i)).map (perturbLow a i))
    return df ++ (hs ++ ls)) = _
  rw [hmapH, exceptBind_ok, hmapL, exceptBind_ok]
  rfl

/-- Decomposition of any successful amplification run. -/
theorem amplify_ok_elim {df : List Patient} {factor : ℚ} {a : AmpDraws}
    {out : List Patient} (h : amplify_edge_cases df factor a = .ok out) :
    ∃ hs ls : List Patient, out = df ++ (hs ++ ls) ∧
      hs.length = nSyn df factor / 2 ∧
      ls.length = nSyn df factor - nSyn df factor / 2 ∧
      (∀ x ∈ hs, ∃ i : ℕ, ∃ src ∈ highPool df, x = perturbHigh a i src) ∧
      (∀ x ∈ ls, ∃ i : ℕ, ∃ src ∈ lowPool df, x = perturbLow a i src) := by
  have h' : (do
      let hs ← (List.range (nSyn df factor / 2)).mapM
        (fun i => (sampleFrom (highPool df) (a.pickH i)).map (perturbHigh a i))
      let ls ← (List.range (nSyn df factor - nSyn df factor / 2)).mapM
        (fun i => (sampleFrom (lowPool df) (a.pickL i)).map (perturbLow a i))
      return df ++ (hs ++ ls)) = .ok out := h
  cases hhs : (List.range (nSyn df factor / 2)).mapM
      (fun i => (sampleFrom (highPool df) (a.pickH i)).map (perturbHigh a i)) with
  | error e => rw [hhs, exceptBind_error] at h'; cases h'
  | ok hs =>
    rw [hhs, exceptBind_ok] at h'
    cases hls : (List.range (nSyn df factor - nSyn df factor / 2)).mapM
        (fun i => (sampleFrom (lowPool df) (a.pickL i)).map (perturbLow a i)) with
    | error e => rw [hls, exceptBind_error] at h'; cases h'
    | ok ls =>
      rw [hls, exceptBind_ok] at h'
      cases h'
      obtain ⟨hlenH, hmemH⟩ := mapM_ok_elim hhs
      obtain ⟨hlenL, hmemL⟩ := mapM_ok_elim hls
      refine ⟨hs, ls, rfl, by simpa using hlenH, by simpa using hlenL, ?_, ?_⟩
      · intro x hx
        obtain ⟨i, _, hok⟩ := hmemH x hx
        by_cases hp : highPool df = []
        · rw [show sampleFrom (highPool df) (a.pickH i) = .error .valueError by
            unfold sampleFrom; rw [if_pos (by simpa using hp)]] at hok
          cases hok
        · rw [sampleFrom_ok hp] at hok
          cases hok
          exact ⟨i, highPick df a i, highPick_mem hp a i, rfl⟩
      · intro x hx
        obtain ⟨i, _, hok⟩ := hmemL x hx
        by_cases hp : lowPool df = []
        · rw [show sampleFrom (lowPool df) (a.pickL i) = .error .valueError by
            unfold sampleFrom; rw [if_pos (by simpa using hp)]] at hok
          cases hok
        · rw [sampleFrom_ok hp] at hok
          cases hok
          exact ⟨i, lowPick df a i, lowPick_mem hp a i, rfl⟩

/-! ## Risk-band and grouping lemmas -/

theorem riskCategory_isSome_iff (s : ℚ) :
    (riskCategory s).isSome = true ↔ (0 < s ∧ s ≤ 100) := by
  unfold riskCategory
  split_ifs with h1 h2 h3 h4
  · exact iff_of_true rfl ⟨h1.1, le_trans h1.2 (by norm_num)⟩
  · exact iff_of_true rfl ⟨by linarith [h2.1], le_trans h2.2 (by norm_num)⟩
  · exact iff_of_true rfl ⟨by linarith [h3.1], le_trans h3.2 (by norm_num)⟩
  · exact iff_of_true rfl ⟨by linarith [h4.1], h4.2⟩
  · refine iff_of_false (by simp) ?_
    rintro ⟨hs0, hs100⟩
    rcases le_or_lt s 30 with hA | hA
    · exact h1 ⟨hs0, hA⟩
    rcases le_or_lt s 50 with hB | hB
    · exact h2 ⟨hA, hB⟩
    rcases le_or_lt s 70 with hC | hC
    · exact h3 ⟨hB, hC⟩
    · exact h4 ⟨hC, hs100⟩

theorem riskCategory_eq_some_iff (s : ℚ) (c : RiskCat) :
    riskCategory s = some c ↔ (bandLo c < s ∧ s ≤ bandHi c) := by
  unfold riskCategory
  split_ifs with h1 h2 h3 h4 <;> cases c <;> simp only [bandLo, bandHi]
  all_goals first
    | exact iff_of_true (by decide) h1
    | exact iff_of_true (by decide) h2
    | exact iff_of_true (by decide) h3
    | exact iff_of_true (by decide) h4
    | exact iff_of_false (by decide) h1
    | exact iff_of_false (by decide) h2
    | exact iff_of_false (by decide) h3
    | exact iff_of_false (by decide) h4
    | (refine iff_of_false (by decide) ?_
       rintro ⟨ha, hb⟩
       first
         | exact h1 ⟨ha, hb⟩
         | exact h2 ⟨ha, hb⟩
         | exact h3 ⟨ha, hb⟩
         | exact h4 ⟨ha, hb⟩
         | linarith [h1.1]
         | linarith [h1.2]
         | linarith [h2.1]
         | linarith [h2.2]
         | linarith [h3.1]
         | linarith [h3.2]
         | linarith [h4.1]
         | linarith [h4.2])

theorem mem_uniqueKeep_aux (l : List String) :
    ∀ (acc : List String) (x : String),
      (x ∈ l.foldl (fun acc t => if t ∈ acc then acc else acc ++ [t]) acc) ↔
        (x ∈ acc ∨ x ∈ l) := by
  induction l with
  | nil => intro acc x; simp
  | cons a as ih =>
    intro acc x
    simp only [List.foldl_cons]
    rw [ih]
    split_ifs with ha
    · simp only [List.mem_cons]
      constructor
      · rintro (h | h)
        · exact Or.inl h
        · exact Or.inr (Or.inr h)
      · rintro (h | h | h)
        · exact Or.inl h
        · exact Or.inl (by rw [h]; exact ha)
        · exact Or.inr h
    · simp only [List.mem_append, List.mem_singleton, List.mem_cons]
      tauto

theorem mem_uniqueKeep (l : List String) (x : String) : x ∈ uniqueKeep l ↔ x ∈ l := by
  unfold uniqueKeep
  rw [mem_uniqueKeep_aux]
  simp

theorem mem_groupRows {df : Table} {t : String} {r : OutcomeSummary} :
    r ∈ groupRows df t ↔ r ∈ df ∧ r.treatment = t := by
  unfold groupRows
  rw [List.mem_filter]
  simp

theorem groupRows_ne_of_mem {df : Table} {t : String}
    (h : t ∈ df.map (fun r => r.treatment)) : groupRows df t ≠ [] := by
  obtain ⟨r, hr, hrt⟩ := List.mem_map.1 h
  intro hempty
  have : r ∈ groupRows df t := mem_groupRows.2 ⟨hr, hrt⟩
  rw [hempty] at this
  cases this

theorem mem_highPool {df : List Patient} {p : Patient} :
    p ∈ highPool df ↔
      p ∈ df ∧ quantileQ (sevColumn df) (9/10) < p.baseline_severity := by
  unfold highPool
  rw [List.mem_filter]
  simp

theorem mem_lowPool {df : List Patient} {p : Patient} :
    p ∈ lowPool df ↔
      p ∈ df ∧ p.baseline_severity < quantileQ (sevColumn df) (1/10) := by
  unfold lowPool
  rw [List.mem_filter]
  simp

/-! ## Generator bounds lemmas -/

theorem clip_round_mem {x lo hi : ℚ} {d : ℕ} (A B : ℤ)
    (hlo : lo = (A : ℚ) / 10 ^ d) (hhi : hi = (B : ℚ) / 10 ^ d) (hle : lo ≤ hi) :
    lo ≤ npRound (npClip x lo hi) d ∧ npRound (npClip x lo hi) d ≤ hi := by
  obtain ⟨h1, h2⟩ := npClip_mem x hle
  subst hlo hhi
  exact npRound_mem h1 h2

theorem pyInt_clip_mem {x lo hi : ℚ} (m M : ℤ)
    (hm : lo = (m : ℚ)) (hM : hi = (M : ℚ)) (h0 : 0 ≤ m) (hle : lo ≤ hi) :
    m ≤ pyInt (npClip x lo hi) ∧ pyInt (npClip x lo hi) ≤ M := by
  obtain ⟨h1, h2⟩ := npClip_mem x hle
  subst hm hM
  exact pyInt_mem h1 h2 h0

theorem buildPatient_bounds (r : GenDraws) (i : ℕ) : physioBounds (buildPatient r i) := by
  unfold physioBounds buildPatient
  refine ⟨?_, ?_, ?_, ?_, ?_, ?_, ?_⟩
  · exact ⟨(clip_round_mem 0 1000 (by norm_num) (by norm_num) (by norm_num)).1,
      (clip_round_mem 0 1000 (by norm_num) (by norm_num) (by norm_num)).2⟩
  · exact ⟨(pyInt_clip_mem 30 85 (by norm_num) (by norm_num) (by norm_num) (by norm_num)).1,
      (pyInt_clip_mem 30 85 (by norm_num) (by norm_num) (by norm_num) (by norm_num)).2⟩
  · exact ⟨(clip_round_mem 180 500 (by norm_num) (by norm_num) (by norm_num)).1,
      (clip_round_mem 180 500 (by norm_num) (by norm_num) (by norm_num)).2⟩
  · exact ⟨(clip_round_mem 90 180 (by norm_num) (by norm_num) (by norm_num)).1,
      (clip_round_mem 90 180 (by norm_num) (by norm_num) (by norm_num)).2⟩
  · exact ⟨(clip_round_mem 60 120 (by norm_num) (by norm_num) (by norm_num)).1,
      (clip_round_mem 60 120 (by norm_num) (by norm_num) (by norm_num)).2⟩
  · exact ⟨(clip_round_mem 70 180 (by norm_num) (by norm_num) (by norm_num)).1,
      (clip_round_mem 70 180 (by norm_num) (by norm_num) (by norm_num)).2⟩
  · exact ⟨(clip_round_mem 450 1000 (by norm_num) (by norm_num) (by norm_num)).1,
      (clip_round_mem 450 1000 (by norm_num) (by norm_num) (by norm_num)).2⟩

theorem generate_base_population_bounds (n : ℕ) (r : GenDraws) :
    ∀ p ∈ generate_base_population n r, physioBounds p := by
  intro p hp
  unfold generate_base_population at hp
  obtain ⟨i, _, rfl⟩ := List.mem_map.1 hp
  exact buildPatient_bounds r i

theorem perturbHigh_severity (a : AmpDraws) (i : ℕ) (src : Patient) :
    (perturbHigh a i src).baseline_severity = src.baseline_severity := rfl

theorem perturbLow_severity (a : AmpDraws) (i : ℕ) (src : Patient) :
    (perturbLow a i src).baseline_severity = src.baseline_severity := rfl

/-! ## Simulator extraction lemmas -/

theorem simulate_ok_elim {sq : ℚ → ℚ} {p : Patient} {num : ℤ} {d : SimDraws}
    {s : OutcomeSummary} (h : simulate_treatment_outcome sq p num d = .ok s) :
    ∃ params, treatment_params p.treatment = some params ∧ 1 ≤ num ∧
      s = runSim sq p params num.toNat d := by
  rcases htp : treatment_params p.treatment with _ | params
  · unfold simulate_treatment_outcome at h
    rw [htp] at h
    cases h
  · unfold simulate_treatment_outcome at h
    rw [htp] at h
    split_ifs at h with h1 h2
    refine ⟨params, ?_, by omega, ?_⟩
    · first
        | exact htp
        | rfl
    · first
        | (cases h; rfl)
        | exact h.symm
        | rfl

theorem countP_disjoint_le (l : List ℕ) (f g : ℕ → Bool)
    (h : ∀ i ∈ l, f i = true → g i = false) :
    l.countP f + l.countP g ≤ l.length := by
  induction l with
  | nil => simp
  | cons a as ih =>
    have ih' := ih (fun i hi => h i (List.mem_cons_of_mem a hi))
    by_cases hfa : f a = true
    · have hga : g a = false := h a (List.mem_cons_self a as) hfa
      simp [List.countP_cons, hfa, hga]
      omega
    · have hfa' : f a = false := by revert hfa; cases f a <;> simp
      simp [List.countP_cons, hfa']
      cases hga : g a <;> simp [hga] <;> omega

/-! ## Claims -/

/-- C7: for every collection of outcome summaries, the comparison table of
`compare_treatments_analysis` is sorted by descending mean success
probability (adjacent rows non-increasing), and rows with equal mean
success probability keep the order of the unsorted comparison rows (which
are built in input first-appearance order): the sort is stable. -/
theorem C7_theorem (sq : ℚ → ℚ) (df : Table) :
    ((compare_treatments_analysis sq df).fst.Pairwise
      (fun a b => b.mean_success_rate ≤ a.mean_success_rate)) ∧
    ∀ v : ℚ,
      (compare_treatments_analysis sq df).fst.filter
          (fun r => decide (r.mean_success_rate = v)) =
        (compareRows sq df).filter (fun r => decide (r.mean_success_rate = v)) := by
  constructor
  · exact pandasSortDesc_sorted _ _
  · intro v
    exact pandasSortDesc_filter _ _
      (fun x y hx hy => by
        rw [decide_eq_true_eq] at hx hy
        rw [hx, hy]) _

/-- C8 counterexample: `risk_stratification_analysis` mutates its input
frame — after the call on a one-row table of severity 50 the table is no
longer equal to the input (a `risk_category` column has been assigned). -/
theorem C8_counterexample :
    (risk_stratification_analysis [testRow "A" 50 1]).snd ≠ [testRow "A" 50 1] := by
  with_unfolding_all decide

/-- C8 amended: `generate_summary_statistics`,
`compare_treatments_analysis` and `confidence_interval_analysis` leave the
input table unchanged, but `risk_stratification_analysis` writes the
`risk_category` column onto the input frame in place (each row otherwise
unchanged). -/
theorem C8_theorem (sq : ℚ → ℚ) (tcrit : ℚ → ℕ → ℚ) (df : Table)
    (metric : String) (conf : ℚ) :
    (generate_summary_statistics sq df).snd = df ∧
    (compare_treatments_analysis sq df).snd = df ∧
    (confidence_interval_analysis sq tcrit df metric conf).snd = df ∧
    (risk_stratification_analysis df).snd =
      df.map (fun r => { r with risk_category := riskCategory r.baseline_severity }) :=
  ⟨rfl, rfl, rfl, rfl⟩

/-- C2 counterexample: with zero or negative trial counts the simulator
fails with numpy's generic errors (`ValueError` from `np.zeros(-1)`,
`IndexError` from `np.percentile` of an empty array), not with the
specification's `InvalidParameterError`; and a patient with an unknown
treatment makes even a positive trial count fail (`KeyError`). -/
theorem C2_counterexample :
    simulate_treatment_outcome sqZ (testPat "P1" 50) (-1) testDraws = .error .valueError ∧
    simulate_treatment_outcome sqZ (testPat "P1" 50) 0 testDraws = .error .indexError ∧
    PyError.valueError ≠ PyError.invalidParameterError ∧
    PyError.indexError ≠ PyError.invalidParameterError ∧
    simulate_treatment_outcome sqZ
      { testPat "P1" 50 with treatment := "Foo" } 5 testDraws = .error .keyError := by
  refine ⟨?_, ?_, by decide, by decide, ?_⟩
  · with_unfolding_all rfl
  · with_unfolding_all rfl
  · with_unfolding_all rfl

/-- C2 amended: `simulate_treatment_outcome` never raises
`InvalidParameterError` (the class does not exist in the code); for a
patient whose treatment is a known profile, a negative trial count fails
with `ValueError`, a zero trial count fails with `IndexError`, and any
count of at least 1 returns an `OutcomeSummary`. -/
theorem C2_theorem (sq : ℚ → ℚ) (p : Patient) (num : ℤ) (d : SimDraws) :
    simulate_treatment_outcome sq p num d ≠ .error .invalidParameterError ∧
    ((treatment_params p.treatment).isSome = true →
      (num < 0 → simulate_treatment_outcome sq p num d = .error .valueError) ∧
      (num = 0 → simulate_treatment_outcome sq p num d = .error .indexError) ∧
      (1 ≤ num → ∃ s, simulate_treatment_outcome sq p num d = .ok s)) := by
  rcases htp : treatment_params p.treatment with _ | params
  · have hsim : simulate_treatment_outcome sq p num d = .error .keyError := by
      unfold simulate_treatment_outcome
      rw [htp]
    refine ⟨by (rw [hsim]; intro h; cases h), fun hs => ?_⟩
    simp at hs
  · have hsim : simulate_treatment_outcome sq p num d =
        (if num < 0 then .error .valueError else if num = 0 then .error .indexError
         else .ok (runSim sq p params num.toNat d)) := by
      unfold simulate_treatment_outcome
      rw [htp]
    rw [hsim]
    constructor
    · split_ifs <;> intro h <;> cases h
    · intro _
      refine ⟨fun hneg => ?_, fun hzero => ?_, fun hpos => ?_⟩
      · rw [if_pos hneg]
      · rw [if_neg (by omega), if_pos hzero]
      · rw [if_neg (by omega), if_neg (by omega)]
        exact ⟨_, rfl⟩

/-- C2 witness: the amended behavior at concrete inputs. -/
theorem C2_witness :
    simulate_treatment_outcome sqZ (testPat "P1" 50) (-2) testDraws = .error .valueError ∧
    ∃ s, simulate_treatment_outcome sqZ (testPat "P1" 50) 2 testDraws = .ok s := by
  constructor
  · exact ((C2_theorem sqZ (testPat "P1" 50) (-2) testDraws).2
      (by with_unfolding_all decide)).1 (by decide)
  · exact ((C2_theorem sqZ (testPat "P1" 50) 2 testDraws).2
      (by with_unfolding_all decide)).2.2 (by decide)

/-- C9: any summary returned by `simulate_treatment_outcome` satisfies
`probability_of_success + probability_of_complications ≤ 1`, because a
trial counted as a success requires that no complication occurred in that
same trial. -/
theorem C9_theorem (sq : ℚ → ℚ) (p : Patient) (num : ℤ) (d : SimDraws)
    (s : OutcomeSummary) (h : simulate_treatment_outcome sq p num d = .ok s) :
    s.probability_of_success + s.probability_of_complications ≤ 1 := by
  obtain ⟨params, htp, hnum, rfl⟩ := simulate_ok_elim h
  have hn1 : 1 ≤ num.toNat := by omega
  have hps : (runSim sq p params num.toNat d).probability_of_success =
      (((List.range num.toNat).countP (fun i => succFlag params p d i)) : ℚ) /
        num.toNat := rfl
  have hpc : (runSim sq p params num.toNat d).probability_of_complications =
      (((List.range num.toNat).countP (fun i => compFlag params p d i)) : ℚ) /
        num.toNat := rfl
  rw [hps, hpc]
  have hdisj : ∀ i ∈ List.range num.toNat, succFlag params p d i = true →
      compFlag params p d i = false := by
    intro i _ hsucc
    unfold succFlag at hsucc
    rw [Bool.and_eq_true] at hsucc
    rcases hsucc with ⟨_, hnc⟩
    revert hnc
    cases compFlag params p d i <;> simp
  have hcount := countP_disjoint_le (List.range num.toNat) _ _ hdisj
  rw [List.length_range] at hcount
  have hnQ : (0 : ℚ) < (num.toNat : ℚ) := by
    have : (0 : ℕ) < num.toNat := hn1
    exact_mod_cast this
  rw [div_add_div_same, div_le_one hnQ]
  exact_mod_cast hcount

/-- C9 witness: the bound at a concrete two-trial simulation. -/
theorem C9_witness :
    simW.probability_of_success + simW.probability_of_complications ≤ 1 :=
  C9_theorem sqZ (testPat "PT1" 50) 2 testDraws simW (by with_unfolding_all rfl)

/-- C10: in every summary produced by `simulate_treatment_outcome`, the
final-severity and severity-reduction bundles are exact mirror images about
the baseline: the means add to the baseline, and the p-th percentile of
final severity equals baseline minus the (100-p)-th percentile of the
reduction, for every percentile pair carried by the bundles. -/
theorem C10_theorem (sq : ℚ → ℚ) (p : Patient) (num : ℤ) (d : SimDraws)
    (s : OutcomeSummary) (h : simulate_treatment_outcome sq p num d = .ok s) :
    s.final_severity.mean + s.severity_reduction.mean = s.baseline_severity ∧
    s.final_severity.percentile_5 =
      s.baseline_severity - s.severity_reduction.percentile_95 ∧
    s.final_severity.percentile_25 =
      s.baseline_severity - s.severity_reduction.percentile_75 ∧
    s.final_severity.percentile_75 =
      s.baseline_severity - s.severity_reduction.percentile_25 ∧
    s.final_severity.percentile_95 =
      s.baseline_severity - s.severity_reduction.percentile_5 := by
  obtain ⟨params, htp, hnum, rfl⟩ := simulate_ok_elim h
  have hn1 : 1 ≤ num.toNat := by omega
  have hlen : (reductions p d num.toNat).length = num.toNat := by
    unfold reductions
    simp
  have hne : reductions p d num.toNat ≠ [] := by
    intro hc
    rw [hc] at hlen
    simp at hlen
    omega
  have hbase : (runSim sq p params num.toNat d).baseline_severity =
      p.baseline_severity := rfl
  have hfm : (runSim sq p params num.toNat d).final_severity.mean =
      listMean ((reductions p d num.toNat).map (fun x => p.baseline_severity - x)) := rfl
  have hrm : (runSim sq p params num.toNat d).severity_reduction.mean =
      listMean (reductions p d num.toNat) := rfl
  have hf5 : (runSim sq p params num.toNat d).final_severity.percentile_5 =
      npPercentile ((reductions p d num.toNat).map (fun x => p.baseline_severity - x)) 5 := rfl
  have hf25 : (runSim sq p params num.toNat d).final_severity.percentile_25 =
      npPercentile ((reductions p d num.toNat).map (fun x => p.baseline_severity - x)) 25 := rfl
  have hf75 : (runSim sq p params num.toNat d).final_severity.percentile_75 =
      npPercentile ((reductions p d num.toNat).map (fun x => p.baseline_severity - x)) 75 := rfl
  have hf95 : (runSim sq p params num.toNat d).final_severity.percentile_95 =
      npPercentile ((reductions p d num.toNat).map (fun x => p.baseline_severity - x)) 95 := rfl
  have hr5 : (runSim sq p params num.toNat d).severity_reduction.percentile_5 =
      npPercentile (reductions p d num.toNat) 5 := rfl
  have hr25 : (runSim sq p params num.toNat d).severity_reduction.percentile_25 =
      npPercentile (reductions p d num.toNat) 25 := rfl
  have hr75 : (runSim sq p params num.toNat d).severity_reduction.percentile_75 =
      npPercentile (reductions p d num.toNat) 75 := rfl
  have hr95 : (runSim sq p params num.toNat d).severity_reduction.percentile_95 =
      npPercentile (reductions p d num.toNat) 95 := rfl
  refine ⟨?_, ?_, ?_, ?_, ?_⟩
  · rw [hfm, hrm, hbase, listMean_map_const_sub _ hne]
    ring
  · rw [hf5, hr95, hbase]
    have hflip : npPercentile
        ((reductions p d num.toNat).map (fun x => p.baseline_severity - x)) 5 =
        p.baseline_severity - npPercentile (reductions p d num.toNat) (100 - 5) :=
      npPercentile_map_sub _ _ hne (by norm_num) (by norm_num)
    rw [hflip]
    norm_num
  · rw [hf25, hr75, hbase]
    have hflip : npPercentile
        ((reductions p d num.toNat).map (fun x => p.baseline_severity - x)) 25 =
        p.baseline_severity - npPercentile (reductions p d num.toNat) (100 - 25) :=
      npPercentile_map_sub _ _ hne (by norm_num) (by norm_num)
    rw [hflip]
    norm_num
  · rw [hf75, hr25, hbase]
    have hflip : npPercentile
        ((reductions p d num.toNat).map (fun x => p.baseline_severity - x)) 75 =
        p.baseline_severity - npPercentile (reductions p d num.toNat) (100 - 75) :=
      npPercentile_map_sub _ _ hne (by norm_num) (by norm_num)
    rw [hflip]
    norm_num
  · rw [hf95, hr5, hbase]
    have hflip : npPercentile
        ((reductions p d num.toNat).map (fun x => p.baseline_severity - x)) 95 =
        p.baseline_severity - npPercentile (reductions p d num.toNat) (100 - 95) :=
      npPercentile_map_sub _ _ hne (by norm_num) (by norm_num)
    rw [hflip]
    norm_num

/-- C10 witness: the mirror identities at a concrete two-trial
simulation. -/
theorem C10_witness :
    simW.final_severity.mean + simW.severity_reduction.mean = simW.baseline_severity ∧
    simW.final_severity.percentile_5 =
      simW.baseline_severity - simW.severity_reduction.percentile_95 :=
  ⟨(C10_theorem sqZ (testPat "PT1" 50) 2 testDraws simW (by with_unfolding_all rfl)).1,
   (C10_theorem sqZ (testPat "PT1" 50) 2 testDraws simW (by with_unfolding_all rfl)).2.1⟩

/-- C4 counterexample: on a non-empty table whose high-severity pool is
empty (a single patient is never strictly above its own 0.9 quantile),
`amplify_edge_cases` with factor 2 ≥ 0 raises `ValueError` from
`.sample(1)` on the empty pool instead of returning any rows. -/
theorem C4_counterexample :
    (0 : ℚ) ≤ 2 ∧
    amplify_edge_cases [testPat "P1" 10] 2 ampZ = .error .valueError := by
  refine ⟨by norm_num, ?_⟩
  with_unfolding_all rfl

/-- C4 amended: when the factor is non-negative and each percentile pool
that will actually be drawn from is non-empty, `amplify_edge_cases`
returns the original rows unchanged and in order, followed by exactly
`int(len(df) * factor)` synthesized rows. -/
theorem C4_theorem (df : List Patient) (factor : ℚ) (a : AmpDraws)
    (hf : 0 ≤ factor)
    (hH : 1 ≤ nSyn df factor / 2 → highPool df ≠ [])
    (hL : 1 ≤ nSyn df factor - nSyn df factor / 2 → lowPool df ≠ []) :
    ∃ syn : List Patient, amplify_edge_cases df factor a = .ok (df ++ syn) ∧
      (syn.length : ℤ) = ⌊(df.length : ℚ) * factor⌋ := by
  refine ⟨_, amplify_ok_of_pools df factor a hH hL, ?_⟩
  rw [List.length_append, List.length_map, List.length_map, List.length_range,
    List.length_range]
  have hsum : nSyn df factor / 2 + (nSyn df factor - nSyn df factor / 2) =
      nSyn df factor := by omega
  rw [hsum]
  unfold nSyn
  have hnn : (0 : ℚ) ≤ (df.length : ℚ) * factor :=
    mul_nonneg (by positivity) hf
  rw [pyInt_floor_of_nonneg hnn]
  exact Int.toNat_of_nonneg (Int.floor_nonneg.2 hnn)

/-- C4 witness: with two distinct severities and factor 1, exactly
`⌊2·1⌋ = 2` synthetic rows follow the originals. -/
theorem C4_witness :
    ∃ syn : List Patient,
      amplify_edge_cases dfPair 1 ampZ = .ok (dfPair ++ syn) ∧
      (syn.length : ℤ) = ⌊((dfPair.length : ℚ)) * 1⌋ :=
  C4_theorem dfPair 1 ampZ (by norm_num)
    (fun _ => by with_unfolding_all decide)
    (fun _ => by with_unfolding_all decide)

/-- C5 counterexample: with both patients exactly at the 0.9 quantile of
severity, the specification's pool (severity ≥ quantile) contains them
both, but the code's strict filter is empty and amplification fails, so a
boundary patient is not an eligible source. -/
theorem C5_counterexample :
    (∀ p ∈ [testPat "P1" 10, testPat "P2" 10],
        quantileQ (sevColumn [testPat "P1" 10, testPat "P2" 10]) (9/10) ≤
          p.baseline_severity) ∧
    specHighPool [testPat "P1" 10, testPat "P2" 10] =
      [testPat "P1" 10, testPat "P2" 10] ∧
    highPool [testPat "P1" 10, testPat "P2" 10] = [] ∧
    amplify_edge_cases [testPat "P1" 10, testPat "P2" 10] 2 ampZ =
      .error .valueError := by
  refine ⟨?_, ?_, ?_, ?_⟩
  · with_unfolding_all decide
  · with_unfolding_all rfl
  · with_unfolding_all rfl
  · with_unfolding_all rfl

/-- C5 amended: every synthetic high-severity patient is a perturbed copy
of an input patient whose severity is strictly greater than the 0.9
quantile, and every synthetic low-severity patient of one strictly below
the 0.1 quantile; patients exactly at the quantile boundary are not
eligible sources. -/
theorem C5_theorem (df : List Patient) (factor : ℚ) (a : AmpDraws)
    (out : List Patient) (h : amplify_edge_cases df factor a = .ok out) :
    ∃ hs ls : List Patient, out = df ++ (hs ++ ls) ∧
      (∀ x ∈ hs, ∃ i : ℕ, ∃ src ∈ df,
        quantileQ (sevColumn df) (9/10) < src.baseline_severity ∧
          x = perturbHigh a i src) ∧
      (∀ x ∈ ls, ∃ i : ℕ, ∃ src ∈ df,
        src.baseline_severity < quantileQ (sevColumn df) (1/10) ∧
          x = perturbLow a i src) := by
  obtain ⟨hs, ls, rfl, _, _, hH, hL⟩ := amplify_ok_elim h
  refine ⟨hs, ls, rfl, ?_, ?_⟩
  · intro x hx
    obtain ⟨i, src, hsrc, rfl⟩ := hH x hx
    obtain ⟨hd, hq⟩ := mem_highPool.1 hsrc
    exact ⟨i, src, hd, hq, rfl⟩
  · intro x hx
    obtain ⟨i, src, hsrc, rfl⟩ := hL x hx
    obtain ⟨hd, hq⟩ := mem_lowPool.1 hsrc
    exact ⟨i, src, hd, hq, rfl⟩

/-- C5 witness: the concrete amplified pair decomposes into a high copy of
the strictly-above-quantile patient and a low copy of the
strictly-below-quantile patient. -/
theorem C5_witness :
    ∃ hs ls : List Patient, outPair = dfPair ++ (hs ++ ls) ∧
      (∀ x ∈ hs, ∃ i : ℕ, ∃ src ∈ dfPair,
        quantileQ (sevColumn dfPair) (9/10) < src.baseline_severity ∧
          x = perturbHigh ampZ i src) ∧
      (∀ x ∈ ls, ∃ i : ℕ, ∃ src ∈ dfPair,
        src.baseline_severity < quantileQ (sevColumn dfPair) (1/10) ∧
          x = perturbLow ampZ i src) :=
  C5_theorem dfPair 1 ampZ outPair (by with_unfolding_all rfl)

/-- C6 amended: every base-population row satisfies all the declared
physiological bounds (and `generate_patient_cohort` without amplification
returns exactly the base population); severity stays in `[0,100]` for
every cohort row, amplified or not, because synthetic rows copy their
source's severity — but the jittered physiological fields of synthetic
rows are not re-clamped and can leave their bounds (see the
counterexample). -/
theorem C6_theorem (n : ℕ) (amplify : Bool) (factor : ℚ) (r : GenDraws)
    (a : AmpDraws) :
    (∀ p ∈ generate_base_population n r, physioBounds p) ∧
    (generate_patient_cohort n false factor r a =
      .ok (generate_base_population n r)) ∧
    (∀ out, generate_patient_cohort n amplify factor r a = .ok out →
      ∀ p ∈ out, 0 ≤ p.baseline_severity ∧ p.baseline_severity ≤ 100) := by
  refine ⟨generate_base_population_bounds n r, rfl, ?_⟩
  intro out hout p hp
  cases amplify with
  | false =>
    have hout' : Except.ok (generate_base_population n r) =
        (Except.ok out : Except PyError (List Patient)) := hout
    cases hout'
    exact (generate_base_population_bounds n r p hp).1
  | true =>
    have hout' : amplify_edge_cases (generate_base_population n r) factor a =
        .ok out := hout
    obtain ⟨hs, ls, rfl, _, _, hH, hL⟩ := amplify_ok_elim hout'
    rcases List.mem_append.1 hp with hbase | hsyn
    · exact (generate_base_population_bounds n r p hbase).1
    · rcases List.mem_append.1 hsyn with hhs | hls
      · obtain ⟨i, src, hsrc, rfl⟩ := hH p hhs
        rw [perturbHigh_severity]
        exact (generate_base_population_bounds n r src (mem_highPool.1 hsrc).1).1
      · obtain ⟨i, src, hsrc, rfl⟩ := hL p hls
        rw [perturbLow_severity]
        exact (generate_base_population_bounds n r src (mem_lowPool.1 hsrc).1).1

set_option maxRecDepth 200000 in
/-- C6 counterexample: a two-patient cohort generated with amplification
(factor 1) and in-support draws yields a synthetic row whose BMI is 52,
outside the declared `[18, 50]` clamp (the source patient's BMI of 50 plus
a jitter of 2); the physiological-bounds invariant fails on amplified
cohorts. -/
theorem C6_counterexample :
    (generate_patient_cohort 2 true 1 genCE ampCE).map
        (fun l => l.map (fun p => p.bmi)) = .ok [19, 50, 52, 19] ∧
    ¬ ((52 : ℚ) ≤ 50) := by
  constructor
  · with_unfolding_all rfl
  · norm_num

/-- C6 witness: the bounds at a concrete unamplified cohort. -/
theorem C6_witness :
    ∀ p ∈ generate_base_population 2 genCE, physioBounds p := by
  intro p hp
  exact (C6_theorem 2 false 1 genCE ampZ).1 p hp

theorem mem_mutated_risk {df : Table} {r : OutcomeSummary}
    (h : r ∈ df.map (fun x => { x with risk_category := riskCategory x.baseline_severity })) :
    r.risk_category = riskCategory r.baseline_severity := by
  obtain ⟨x, _, rfl⟩ := List.mem_map.1 h
  rfl

/-- C1 counterexample: `pd.cut` with the default `right=True` buckets a
row of severity 30 into the Low band (the claim's half-open `[30,50)`
boundary would place it in Moderate), a row of severity 0 into no band at
all (the claim places it in Low), and the Low band's mean baseline
severity 30 lies outside the declared numeric range `[0,30)`. -/
theorem C1_counterexample :
    ((risk_stratification_analysis [testRow "A" 30 1]).fst.map Prod.fst =
      [RiskCat.Low]) ∧
    ((risk_stratification_analysis [testRow "A" 30 1]).fst.map
        (fun e => e.2.mean_baseline_severity) = [30]) ∧
    ¬ ((0 : ℚ) ≤ 30 ∧ (30 : ℚ) < 30) ∧
    specRiskBand 30 = some RiskCat.Moderate ∧
    ((risk_stratification_analysis [testRow "A" 0 1]).fst = []) ∧
    specRiskBand 0 = some RiskCat.Low := by
  refine ⟨?_, ?_, ?_, ?_, ?_, ?_⟩
  · with_unfolding_all rfl
  · with_unfolding_all rfl
  · with_unfolding_all decide
  · with_unfolding_all rfl
  · with_unfolding_all rfl
  · with_unfolding_all rfl

/-- C1 amended: the bands are left-open right-closed — `(0,30] (30,50]
(50,70] (70,100]` — and they cover exactly the severities in `(0,100]`
(severity 0, or anything outside, falls in no band); each row is assigned
by the single function `riskCategory`, hence to exactly one band; and
every non-empty band's mean baseline severity lies inside that band's
actual half-open range. -/
theorem C1_theorem (df : Table) :
    (∀ s : ℚ, (riskCategory s).isSome = true ↔ (0 < s ∧ s ≤ 100)) ∧
    (∀ (s : ℚ) (c : RiskCat), riskCategory s = some c ↔
      (bandLo c < s ∧ s ≤ bandHi c)) ∧
    (∀ (c : RiskCat) (st : RiskStats),
      (c, st) ∈ (risk_stratification_analysis df).fst →
        1 ≤ st.n_patients ∧ bandLo c < st.mean_baseline_severity ∧
          st.mean_baseline_severity ≤ bandHi c) := by
  refine ⟨riskCategory_isSome_iff, riskCategory_eq_some_iff, ?_⟩
  intro c st hmem
  unfold risk_stratification_analysis at hmem
  obtain ⟨c', hc', hf⟩ := List.mem_filterMap.1 hmem
  dsimp only at hf
  split_ifs at hf with hge
  injection hf with hf'
  injection hf' with hceq hsteq
  subst hceq
  subst hsteq
  have hne : List.filter (fun r => r.risk_category = some c')
      (df.map (fun r => { r with risk_category := riskCategory r.baseline_severity })) ≠
        [] := by
    intro hc0
    rw [hc0] at hge
    exact hge rfl
  refine ⟨List.length_pos.2 hne, ?_⟩
  have hbound : ∀ x ∈ (List.filter (fun r => r.risk_category = some c')
      (df.map (fun r => { r with risk_category := riskCategory r.baseline_severity }))).map
        (fun r => r.baseline_severity),
      bandLo c' < x ∧ x ≤ bandHi c' := by
    intro x hx
    obtain ⟨r, hr, rfl⟩ := List.mem_map.1 hx
    obtain ⟨hrM, hrc⟩ := List.mem_filter.1 hr
    have hrc' : r.risk_category = some c' := by
      simpa using hrc
    have hmm := mem_mutated_risk hrM
    rw [hmm] at hrc'
    exact (riskCategory_eq_some_iff r.baseline_severity c').1 hrc'
  have hmapne : (List.filter (fun r => r.risk_category = some c')
      (df.map (fun r => { r with risk_category := riskCategory r.baseline_severity }))).map
        (fun r => r.baseline_severity) ≠ [] := by
    intro hc0
    exact hne (List.map_eq_nil.1 hc0)
  exact listMean_mem_Ioc hmapne hbound

/-- C1 witness: the amended band facts at a one-row table of severity 40
(Moderate band, mean 40 inside `(30,50]`). -/
theorem C1_witness :
    1 ≤ rsW.n_patients ∧ bandLo RiskCat.Moderate < rsW.mean_baseline_severity ∧
      rsW.mean_baseline_severity ≤ bandHi RiskCat.Moderate :=
  (C1_theorem [testRow "A" 40 1]).2.2 RiskCat.Moderate rsW
    (by with_unfolding_all decide)

/-- C3 counterexample: with a single-row treatment group the
confidence-interval analysis does not fail at all — it returns a row whose
bounds are NaN (the group's standard error is NaN and the t-interval has
zero degrees of freedom) — so it does not raise
`InsufficientSampleError`. -/
theorem C3_counterexample :
    (confidence_interval_analysis sqZ tcZ [testRow "A" 50 (3/4)]
        "probability_of_success" (95/100)).fst =
      .ok [{ treatment := "A", ci_mean := .num (3/4), lower_ci := .nan,
             upper_ci := .nan, margin_of_error := .nan }] ∧
    (confidence_interval_analysis sqZ tcZ [testRow "A" 50 (3/4)]
        "probability_of_success" (95/100)).fst ≠
      .error .insufficientSampleError := by
  have h1 : (confidence_interval_analysis sqZ tcZ [testRow "A" 50 (3/4)]
      "probability_of_success" (95/100)).fst =
      .ok [{ treatment := "A", ci_mean := .num (3/4), lower_ci := .nan,
             upper_ci := .nan, margin_of_error := .nan }] := by
    with_unfolding_all rfl
  refine ⟨h1, ?_⟩
  rw [h1]
  intro hc
  cases hc

/-- C3 amended: `confidence_interval_analysis` never fails with
`InsufficientSampleError` (the class does not exist in the code); for each
treatment group it returns the sample mean, and when the group has at
least 2 rows the symmetric Student-t bounds `mean ∓ t⁎·SEM` with
`df = count - 1` and half-width `t⁎·SEM`; a group of exactly 1 row gets
NaN bounds instead of an error. -/
theorem C3_theorem (sq : ℚ → ℚ) (tcrit : ℚ → ℕ → ℚ) (df : Table) (conf : ℚ) :
    (∀ metric : String,
      (confidence_interval_analysis sq tcrit df metric conf).fst ≠
        .error .insufficientSampleError) ∧
    ∃ rows : List CIRow,
      (confidence_interval_analysis sq tcrit df "probability_of_success" conf).fst =
        .ok rows ∧
      ∀ row ∈ rows,
        groupMetric df row.treatment ≠ [] ∧
        row.ci_mean = .num (listMean (groupMetric df row.treatment)) ∧
        (2 ≤ (groupMetric df row.treatment).length →
          row.lower_ci = .num (listMean (groupMetric df row.treatment) -
            tcrit conf ((groupMetric df row.treatment).length - 1) *
              sq (varS (groupMetric df row.treatment) /
                (groupMetric df row.treatment).length)) ∧
          row.upper_ci = .num (listMean (groupMetric df row.treatment) +
            tcrit conf ((groupMetric df row.treatment).length - 1) *
              sq (varS (groupMetric df row.treatment) /
                (groupMetric df row.treatment).length)) ∧
          row.margin_of_error = .num
            (tcrit conf ((groupMetric df row.treatment).length - 1) *
              sq (varS (groupMetric df row.treatment) /
                (groupMetric df row.treatment).length))) ∧
        ((groupMetric df row.treatment).length = 1 →
          row.lower_ci = .nan ∧ row.upper_ci = .nan ∧
            row.margin_of_error = .nan) := by
  constructor
  · intro metric
    unfold confidence_interval_analysis
    rcases hsc : scalarColumn metric with _ | getM
    · dsimp only
      split_ifs
      · intro hc; cases hc
      · intro hc
        injection hc with hc'
        cases hc'
    · dsimp only
      intro hc
      cases hc
  · refine ⟨_, rfl, ?_⟩
    intro row hrow
    obtain ⟨t, ht, rfl⟩ := List.mem_map.1 hrow
    have htd : t ∈ df.map (fun r => r.treatment) := (mem_uniqueKeep _ t).1 ht
    have hgne : groupRows df t ≠ [] := groupRows_ne_of_mem htd
    have hvne : groupMetric df t ≠ [] := by
      intro hc
      exact hgne (List.map_eq_nil.1 hc)
    have htreat : (ciRowFor sq tcrit conf (fun r => r.probability_of_success) df t).treatment
        = t := rfl
    rw [htreat]
    refine ⟨hvne, ?_, ?_, ?_⟩
    · show pdMean (groupMetric df t) = .num (listMean (groupMetric df t))
      unfold pdMean
      rw [if_neg (by simpa using hvne)]
    · intro h2
      have hsem : pdSem sq (groupMetric df t) =
          .num (sq (varS (groupMetric df t) / (groupMetric df t).length)) := by
        unfold pdSem
        rw [if_pos h2]
      have hdof : (groupMetric df t).length - 1 ≠ 0 := by omega
      refine ⟨?_, ?_, ?_⟩
      · show (tInterval tcrit conf ((groupMetric df t).length - 1)
            (listMean (groupMetric df t)) (pdSem sq (groupMetric df t))).1 = _
        rw [hsem]
        unfold tInterval
        dsimp only
        rw [if_neg hdof]
      · show (tInterval tcrit conf ((groupMetric df t).length - 1)
            (listMean (groupMetric df t)) (pdSem sq (groupMetric df t))).2 = _
        rw [hsem]
        unfold tInterval
        dsimp only
        rw [if_neg hdof]
      · show halfWidth
            (tInterval tcrit conf ((groupMetric df t).length - 1)
              (listMean (groupMetric df t)) (pdSem sq (groupMetric df t))).2
            (tInterval tcrit conf ((groupMetric df t).length - 1)
              (listMean (groupMetric df t)) (pdSem sq (groupMetric df t))).1 = _
        rw [hsem]
        unfold tInterval
        dsimp only
        rw [if_neg hdof]
        unfold halfWidth
        dsimp only
        congr 1
        ring
    · intro h1
      have hsem : pdSem sq (groupMetric df t) = .nan := by
        unfold pdSem
        rw [if_neg (by omega)]
      refine ⟨?_, ?_, ?_⟩
      · show (tInterval tcrit conf ((groupMetric df t).length - 1)
            (listMean (groupMetric df t)) (pdSem sq (groupMetric df t))).1 = _
        rw [hsem]
        rfl
      · show (tInterval tcrit conf ((groupMetric df t).length - 1)
            (listMean (groupMetric df t)) (pdSem sq (groupMetric df t))).2 = _
        rw [hsem]
        rfl
      · show halfWidth
            (tInterval tcrit conf ((groupMetric df t).length - 1)
              (listMean (groupMetric df t)) (pdSem sq (groupMetric df t))).2
            (tInterval tcrit conf ((groupMetric df t).length - 1)
              (listMean (groupMetric df t)) (pdSem sq (groupMetric df t))).1 = _
        rw [hsem]
        rfl

/-- C3 witness: the amended behavior applied to a concrete table with one
two-row treatment group. -/
theorem C3_witness :
    ((confidence_interval_analysis sqZ tcZ dfCI "probability_of_success"
        (95/100)).fst ≠ .error .insufficientSampleError) ∧
    ∃ rows : List CIRow,
      (confidence_interval_analysis sqZ tcZ dfCI "probability_of_success"
        (95/100)).fst = .ok rows ∧
      ∀ row ∈ rows, groupMetric dfCI row.treatment ≠ [] := by
  constructor
  · exact (C3_theorem sqZ tcZ dfCI (95/100)).1 "probability_of_success"
  · obtain ⟨rows, hok, hall⟩ := (C3_theorem sqZ tcZ dfCI (95/100)).2
    exact ⟨rows, hok, fun row hr => (hall row hr).1⟩

end HealthMC
